import Mathlib

/-! # Verification of the bttk-mcp MCP servers

A shallow embedding, in Lean 4, of the parts of the bttk-mcp repository
(Go) that its specification talks about:

* the OAuth2 token flow of `internal/googleapi/client.go`
  (`getClient`, `getTokenFromWeb`, `getTokenFromWebManual`,
  `tokenFromFile`, `saveToken`);
* the Gmail MCP tool handlers of `pkg/gmailmcp/tools.go`
  (`GmailSearchHandler`, `GmailReadHandler`, `processPart`,
  `processPartBody`);
* the Calendar MCP tool handlers of `pkg/calendarmcp/tools.go`
  (`isCalendarAllowed`, `checkCalendarAccess` and the six handlers);
* the Obsidian REST client of `pkg/obsidian` (`Client.do` and the
  Vault/Search/Periodic/ActiveFile/Commands/Open service methods);
* the tool registration of the three server mains;
* config loading (`config.Load`).

Go strings are byte strings; where byte-level behaviour matters (the
Gmail base64 bodies) they are embedded as `List Nat` of byte values,
elsewhere as Lean `String`.  Effectful code is embedded by passing the
outcome of each external interaction (file system, HTTP transport,
token refresh, stdin) explicitly as an environment, and by returning
the calls a function makes alongside its result.
-/

/-! ## Byte strings -/

/-- A Go string, as a list of byte values (each `< 256` for well-formed
data; nothing below depends on the bound). -/
abbrev GoStr := List Nat

/-- Encode an ASCII Lean string literal as a Go byte string. -/
def str (s : String) : GoStr := s.toList.map Char.toNat

/-- Go `strings.Contains s sub`: `sub` occurs contiguously in `s`. -/
def containsSub (s sub : GoStr) : Bool :=
  match s with
  | [] => sub.isPrefixOf ([] : GoStr)
  | _ :: t => sub.isPrefixOf s || containsSub t sub

/-! ## base64url decoding (`encoding/base64`)

`base64.URLEncoding.DecodeString` (padded) and
`base64.RawURLEncoding.DecodeString` (unpadded), as used by
`processPartBody`.  Go's decoder skips `\r` and `\n` anywhere in the
input; otherwise a padded input must be a multiple of four characters
with at most two trailing `=`, and an unpadded input must not have a
remainder of one character. -/

/-- Value of one base64url alphabet character (A-Z a-z 0-9 - _). -/
def b64Char (c : Nat) : Option Nat :=
  if 65 ≤ c ∧ c ≤ 90 then some (c - 65)
  else if 97 ≤ c ∧ c ≤ 122 then some (c - 97 + 26)
  else if 48 ≤ c ∧ c ≤ 57 then some (c - 48 + 52)
  else if c = 45 then some 62
  else if c = 95 then some 63
  else none

/-- Reassemble bytes from 6-bit values; a trailing group of two or
three values yields one or two bytes, a trailing group of one is
invalid. -/
def bytesOfSextets : List Nat → Option (List Nat)
  | [] => some []
  | [_] => none
  | [a, b] => some [a * 4 + b / 16]
  | [a, b, c] => some [a * 4 + b / 16, b % 16 * 16 + c / 4]
  | a :: b :: c :: d :: rest => do
      let tail ← bytesOfSextets rest
      pure ([a * 4 + b / 16, b % 16 * 16 + c / 4, c % 4 * 64 + d] ++ tail)

/-- Strip the characters Go's base64 decoder ignores (`\r`, `\n`). -/
def b64Strip (s : GoStr) : GoStr := s.filter fun c => c ≠ 13 ∧ c ≠ 10

/-- Count of trailing `=` padding characters. -/
def b64PadCount (s : GoStr) : Nat := (s.reverse.takeWhile (· = 61)).length

/-- Go `base64.RawURLEncoding.DecodeString`: no padding allowed. -/
def rawURLDecode (s : GoStr) : Option (List Nat) := do
  let s := b64Strip s
  let sx ← s.mapM b64Char
  bytesOfSextets sx

/-- Go `base64.URLEncoding.DecodeString`: length a multiple of four, at
most two trailing `=`, none elsewhere. -/
def stdURLDecode (s : GoStr) : Option (List Nat) := do
  let s := b64Strip s
  if s.length % 4 ≠ 0 then none
  else
    let pads := b64PadCount s
    if pads > 2 then none
    else do
      let sx ← (s.take (s.length - pads)).mapM b64Char
      bytesOfSextets sx

/-- The decode attempt of `processPartBody`: standard base64url first,
raw base64url if that fails. -/
def decodeB64Url (s : GoStr) : Option (List Nat) :=
  (stdURLDecode s).orElse fun _ => rawURLDecode s

/-! ## Gmail message payloads (`gmail.MessagePart`) and the
truncation pass of `pkg/gmailmcp/tools.go` -/

/-- Go `gmail.MessagePartBody` (fields used by the repository). -/
structure MessagePartBody where
  attachmentId : GoStr
  size : Int
  data : GoStr
deriving Repr, DecidableEq

mutual
/-- Go `gmail.MessagePart`: a payload tree.  `parts` embeds the Go slice
`[]*MessagePart` (a mutual list type keeps induction simple). -/
inductive MessagePart where
  | mk (partId : GoStr) (mimeType : GoStr) (filename : GoStr)
      (headers : List (GoStr × GoStr)) (body : Option MessagePartBody)
      (parts : MessagePartList)
deriving Repr
/-- A list of message parts. -/
inductive MessagePartList where
  | nil
  | cons (p : MessagePart) (ps : MessagePartList)
deriving Repr
end

/-- MIME type of a part. -/
def MessagePart.mimeType : MessagePart → GoStr
  | .mk _ mt _ _ _ _ => mt

/-- Body of a part. -/
def MessagePart.body : MessagePart → Option MessagePartBody
  | .mk _ _ _ _ b _ => b

/-- Children of a part. -/
def MessagePart.parts : MessagePart → MessagePartList
  | .mk _ _ _ _ _ ps => ps

/-- The marker appended to a truncated body. -/
def truncMarker : GoStr := str "... [TRUNCATED]"

/-- The text test of `processPartBody`:
`strings.Contains(part.MimeType, "text/plain") ||
 strings.Contains(part.MimeType, "text/html")`. -/
def isTextMime (mt : GoStr) : Bool :=
  containsSub mt (str "text/plain") || containsSub mt (str "text/html")

/-- Go `processPartBody` of `pkg/gmailmcp/tools.go`, on a part with a
non-nil body and non-empty data.  Takes the part's MIME type and body
together with the byte budget and the running counter; returns the
updated body and counter (in Go the part and `*currentBytes` are
mutated in place). -/
def processPartBody (mt : GoStr) (b : MessagePartBody) (maxBytes cur : Int) :
    MessagePartBody × Int :=
  if ¬isTextMime mt then ({ b with data := [] }, cur)
  else
    match decodeB64Url b.data with
    | none => (b, cur)
    | some data =>
      let remaining : Int := maxBytes - cur
      if remaining ≤ 0 then ({ b with data := [] }, cur)
      else if (data.length : Int) > remaining then
        ({ b with data := data.take remaining.toNat ++ truncMarker }, maxBytes)
      else ({ b with data := data }, cur + data.length)

mutual
/-- Go `processPart` of `pkg/gmailmcp/tools.go`: process this part's body
(when present with non-empty data), then each child in order,
threading the byte counter. -/
def processPart (maxBytes : Int) : MessagePart → Int → MessagePart × Int
  | .mk pid mt fn hd body parts, cur =>
    let s1 : Option MessagePartBody × Int :=
      match body with
      | some b =>
        if b.data ≠ [] then
          let r := processPartBody mt b maxBytes cur
          (some r.1, r.2)
        else (some b, cur)
      | none => (none, cur)
    let s2 := processParts maxBytes parts s1.2
    (.mk pid mt fn hd s1.1 s2.1, s2.2)

/-- The `for _, p := range part.Parts` loop of `processPart`. -/
def processParts (maxBytes : Int) : MessagePartList → Int → MessagePartList × Int
  | .nil, cur => (.nil, cur)
  | .cons p ps, cur =>
    let r1 := processPart maxBytes p cur
    let r2 := processParts maxBytes ps r1.2
    (.cons r1.1 r2.1, r2.2)
end

/-- The nil-guard entry point: `processPart` returns immediately on a
nil part (the handler passes `msg.Payload`, which may be nil). -/
def processPartOpt (maxBytes : Int) (p : Option MessagePart) (cur : Int) :
    Option MessagePart × Int :=
  match p with
  | none => (none, cur)
  | some p => let r := processPart maxBytes p cur; (some r.1, r.2)

/-! ## MCP tool arguments and results (`mcp-go` as seen by the handlers)

A handler receives `request.Params.Arguments`, an `interface{}` that it
type-asserts to `map[string]interface{}`; individual arguments are
type-asserted to `string` or `float64`.  JSON numbers arrive as
`float64` and the handlers only convert them with `int64(·)`/`int(·)`,
so numeric arguments are embedded as integers. -/

/-- A decoded JSON argument value. -/
inductive ArgVal where
  | s (v : String)
  | n (v : Int)
  | b (v : Bool)
  | list (vs : List ArgVal)
  | other
deriving Repr

/-- Go `request.Params.Arguments`: either a `map[string]interface{}` or
something whose assertion to one fails. -/
inductive ReqArgs where
  | map (args : List (String × ArgVal))
  | notMap
deriving Repr

/-- Go `args[k]` (missing key yields the nil interface). -/
def lookupArg (args : List (String × ArgVal)) (k : String) : Option ArgVal :=
  args.lookup k

/-- Go `args[k].(string)`: present and a string. -/
def argStr (args : List (String × ArgVal)) (k : String) : Option String :=
  match lookupArg args k with
  | some (.s v) => some v
  | _ => none

/-- Go `args[k].(float64)`: present and a number. -/
def argNum (args : List (String × ArgVal)) (k : String) : Option Int :=
  match lookupArg args k with
  | some (.n v) => some v
  | _ => none

/-- Go `args[k].(bool)`: present and a boolean. -/
def argBool (args : List (String × ArgVal)) (k : String) : Option Bool :=
  match lookupArg args k with
  | some (.b v) => some v
  | _ => none

/-- The `getArgs` helper of `cmd/obsidianmcp/tools.go`: a failed map
assertion yields an empty map rather than an error. -/
def getArgs (req : ReqArgs) : List (String × ArgVal) :=
  match req with
  | .map args => args
  | .notMap => []

/-- An MCP tool call result: `mcp.NewToolResultError`,
`mcp.NewToolResultText` or `mcp.NewToolResultJSON` (the latter's
marshal step cannot fail for the struct-of-strings payloads these
handlers pass it). -/
inductive ToolResult (α : Type) where
  | errorR (msg : String)
  | textR (s : String)
  | jsonR (v : α)
deriving Repr, DecidableEq

/-- Is the result a tool error (`IsError` on the MCP result)? -/
def ToolResult.isToolError : ToolResult α → Bool
  | .errorR _ => true
  | _ => false

/-! ## Gmail MCP tools (`pkg/gmailmcp/tools.go`) -/

/-- Go `gmail.Message` (fields the handlers touch; the rest of the struct
is marshaled unchanged). -/
structure GmailMessage where
  id : String
  threadId : String
  snippet : String
  payload : Option MessagePart
deriving Repr

/-- Outcome of each `gmail.API` method, supplied as an environment. -/
structure GmailEnv where
  searchMessages : String → Int → Except String (List GmailMessage)
  getMessage : String → Except String GmailMessage

/-- A call made to the `gmail.API` client. -/
inductive GmailCall where
  | search (query : String) (maxResults : Int)
  | getMessage (id : String)
deriving Repr, DecidableEq

/-- Go `defaultMaxResults`. -/
def defaultMaxResults : Int := 50

/-- Go `defaultMaxBodyBytes`. -/
def defaultMaxBodyBytes : Int := 10000

/-- Go `GmailSearchHandler`: returns the tool result together with the
list of client calls it made. -/
def GmailSearchHandler (env : GmailEnv) (req : ReqArgs) :
    ToolResult (List GmailMessage × Nat) × List GmailCall :=
  match req with
  | .notMap => (.errorR "arguments must be a map", [])
  | .map args =>
    match argStr args "query" with
    | none => (.errorR "query argument must be a string", [])
    | some query =>
      let maxResults := (argNum args "maxResults").getD defaultMaxResults
      match env.searchMessages query maxResults with
      | .error e => (.errorR ("failed to search messages: " ++ e),
          [.search query maxResults])
      | .ok msgs => (.jsonR (msgs, msgs.length), [.search query maxResults])

/-- Go `GmailReadHandler`: fetch the message, run the truncation pass over
its payload with `currentBytes = 0`, return the processed message. -/
def GmailReadHandler (env : GmailEnv) (req : ReqArgs) :
    ToolResult GmailMessage × List GmailCall :=
  match req with
  | .notMap => (.errorR "arguments must be a map", [])
  | .map args =>
    match argStr args "messageId" with
    | none => (.errorR "messageId argument must be a string", [])
    | some id =>
      let maxBodyBytes := (argNum args "maxBodyBytes").getD defaultMaxBodyBytes
      match env.getMessage id with
      | .error e => (.errorR ("failed to get message: " ++ e), [.getMessage id])
      | .ok msg =>
        let r := processPartOpt maxBodyBytes msg.payload 0
        (.jsonR { msg with payload := r.1 }, [.getMessage id])

/-! ## JSON values and the token file (`internal/googleapi/client.go`)

`saveToken` writes `json.NewEncoder(f).Encode(token)`; `tokenFromFile`
reads `json.NewDecoder(f).Decode(tok)`.  The file system is embedded
as an association list from paths to the JSON value stored at each
path (`saveToken`'s own write errors are only printed in Go, so the
embedding models the successful write). -/

/-- A JSON value. -/
inductive JVal where
  | null
  | jstr (s : String)
  | jnum (n : Int)
  | jbool (b : Bool)
  | jarr (xs : List JVal)
  | jobj (fields : List (String × JVal))
deriving Repr

/-- Go `oauth2.Token` (serialized fields, in struct order:
`access_token`, `token_type,omitempty`, `refresh_token,omitempty`,
`expiry,omitempty`, `expires_in,omitempty`).  `Expiry` is a
`time.Time`, embedded as an abstract instant serialized as a number
(Go serializes it as an RFC 3339 string; both serializations are
injective, which is all the development uses). -/
structure OAuthToken where
  accessToken : String
  tokenType : String
  refreshToken : String
  expiry : Int
  expiresIn : Int
deriving Repr, DecidableEq

/-- The zero `oauth2.Token`. -/
def zeroToken : OAuthToken := ⟨"", "", "", 0, 0⟩

/-- Go `json.Marshal` of an `oauth2.Token`.  `omitempty` drops empty
strings and zero integers; it never drops a struct field, so `expiry`
is always present. -/
def encodeToken (t : OAuthToken) : JVal :=
  .jobj ([("access_token", .jstr t.accessToken)]
    ++ (if t.tokenType = "" then [] else [("token_type", .jstr t.tokenType)])
    ++ (if t.refreshToken = "" then [] else [("refresh_token", .jstr t.refreshToken)])
    ++ [("expiry", .jnum t.expiry)]
    ++ (if t.expiresIn = 0 then [] else [("expires_in", .jnum t.expiresIn)]))

/-- Decode a string field: absent or JSON `null` leaves the zero
value, a string sets it, any other type is a decode error. -/
def jStrField (fs : List (String × JVal)) (k : String) : Option String :=
  match fs.lookup k with
  | none => some ""
  | some (.jstr s) => some s
  | some .null => some ""
  | some _ => none

/-- Decode an integer field, as `jStrField`. -/
def jNumField (fs : List (String × JVal)) (k : String) : Option Int :=
  match fs.lookup k with
  | none => some 0
  | some (.jnum n) => some n
  | some .null => some 0
  | some _ => none

/-- Go `json.Unmarshal` into a fresh `&oauth2.Token{}`: an object sets
the known fields (unknown ones are ignored), JSON `null` leaves the
zero token, anything else is a decode error. -/
def decodeToken (j : JVal) : Option OAuthToken :=
  match j with
  | .null => some zeroToken
  | .jobj fs => do
      let a ← jStrField fs "access_token"
      let tt ← jStrField fs "token_type"
      let rt ← jStrField fs "refresh_token"
      let e ← jNumField fs "expiry"
      let ei ← jNumField fs "expires_in"
      pure ⟨a, tt, rt, e, ei⟩
  | _ => none

/-- The file system, path ↦ stored JSON value. -/
abbrev FileStore := List (String × JVal)

/-- Go `os.Create` + write: truncate and rewrite the file at `path`. -/
def fsWrite (fs : FileStore) (path : String) (v : JVal) : FileStore :=
  (path, v) :: fs.filter fun e => e.1 ≠ path

/-- Go `os.Open` + read (absent file: error). -/
def fsRead (fs : FileStore) (path : String) : Option JVal := fs.lookup path

/-- Go `tokenFromFile`: open the file and decode a token from it;
`none` when either step fails. -/
def tokenFromFile (fs : FileStore) (file : String) : Option OAuthToken :=
  (fsRead fs file).bind decodeToken

/-- Go `saveToken`: encode the token (a nil `*oauth2.Token` encodes as
JSON `null`) and write it to `path`. -/
def saveToken (fs : FileStore) (path : String) (t : Option OAuthToken) : FileStore :=
  fsWrite fs path (match t with | some t => encodeToken t | none => .null)

/-! ## The web authorization flow (`getTokenFromWeb`,
`getTokenFromWebManual`) -/

/-- Outcomes of the external interactions of the web flow. -/
structure WebFlowEnv where
  /-- Did `net.Listen("tcp", "127.0.0.1:0")` succeed? -/
  listenOk : Bool
  /-- The code received on `codeCh` from the local callback server
  (`""` when the redirect query carried no `code`). -/
  callbackCode : String
  /-- The code read from standard input on the manual path
  (`none` when `fmt.Scan` fails). -/
  stdinCode : Option String
  /-- Go `config.Exchange`: turn an authorization code into a token
  (`none` on failure). -/
  exchange : String → Option OAuthToken

/-- Go `getTokenFromWebManual`: print the URL, read a code from standard
input, exchange it. -/
def getTokenFromWebManual (env : WebFlowEnv) : Option OAuthToken :=
  match env.stdinCode with
  | none => none
  | some code => env.exchange code

/-- Result of `getTokenFromWeb`, recording whether the manual
copy-paste fallback ran. -/
structure WebFlowResult where
  token : Option OAuthToken
  manualFallback : Bool
deriving Repr, DecidableEq

/-- Go `getTokenFromWeb`: if the local listener cannot be created, fall
back to manual entry; otherwise wait for the callback code, return nil
on an empty code, else exchange it (nil on exchange failure). -/
def getTokenFromWeb (env : WebFlowEnv) : WebFlowResult :=
  if ¬env.listenOk then { token := getTokenFromWebManual env, manualFallback := true }
  else if env.callbackCode = "" then { token := none, manualFallback := false }
  else { token := env.exchange env.callbackCode, manualFallback := false }

/-! ## `getClient` -/

/-- The web-flow environment plus the refresh outcome. -/
structure OAuthEnv extends WebFlowEnv where
  /-- Go `config.TokenSource(ctx, tok).Token()`: the (possibly refreshed)
  token, or `none` when the refresh fails. -/
  refresh : OAuthToken → Option OAuthToken

/-- Result of `getClient`: the token the returned `http.Client` is
built from (`config.Client(ctx, tok)`), the file system afterwards,
and whether the web flow ran. -/
structure GetClientResult where
  client : Option OAuthToken
  fs : FileStore
  webFlow : Bool
deriving Repr

/-- Go `getClient` of `internal/googleapi/client.go`. -/
def getClient (env : OAuthEnv) (fs : FileStore) (tokenPath : String) : GetClientResult :=
  match tokenFromFile fs tokenPath with
  | none =>
    let tok := (getTokenFromWeb env.toWebFlowEnv).token
    { client := tok, fs := saveToken fs tokenPath tok, webFlow := true }
  | some tok =>
    match env.refresh tok with
    | none =>
      let t := (getTokenFromWeb env.toWebFlowEnv).token
      { client := t, fs := saveToken fs tokenPath t, webFlow := true }
    | some newTok =>
      if newTok.accessToken ≠ tok.accessToken then
        { client := some newTok, fs := saveToken fs tokenPath (some newTok), webFlow := false }
      else
        { client := some tok, fs := fs, webFlow := false }

/-! ## The Obsidian REST client (`pkg/obsidian`)

`Client.do` sets the `Authorization` header, issues the one HTTP call,
and classifies the response; every service method builds a request and
hands it to `do`.  URLs are embedded as plain strings
(`baseURL.ResolveReference` on the relative service paths is string
concatenation for the well-formed base URLs `NewClient` produces;
query-parameter encoding is embedded directly). -/

/-- An outgoing HTTP request. -/
structure HttpRequest where
  method : String
  url : String
  headers : List (String × String)
  body : String
deriving Repr, DecidableEq

/-- An HTTP response. -/
structure HttpResponse where
  status : Nat
  body : String
deriving Repr, DecidableEq

/-- Go `req.Header.Set k v`: replace any previous value of `k`. -/
def setHeader (hs : List (String × String)) (k v : String) : List (String × String) :=
  hs.filter (fun p => p.1 ≠ k) ++ [(k, v)]

/-- Read a header value. -/
def getHeader (hs : List (String × String)) (k : String) : Option String :=
  hs.lookup k

/-- Go `obsidian.ErrorResponse` (`errorCode`, `message`). -/
structure ErrorResponse where
  errorCode : Int
  message : String
deriving Repr, DecidableEq

/-- The shape of `do`'s second argument `v`: nil, a `*string`, or a
pointer to a JSON-decodable value. -/
inductive DoTarget where
  | noTarget
  | strTarget
  | jsonTarget
deriving Repr, DecidableEq

/-- What `do` produced: one of the error cases (transport failure, a
decoded `ErrorResponse`, the `ErrAPI`-wrapped status-and-body error,
a failed decode of the success body) or a success (nothing, the raw
body string, or the decoded JSON value). -/
inductive DoResult where
  | transportErr (e : String)
  | errResp (e : ErrorResponse)
  | apiErr (status : Nat) (body : String)
  | jsonDecodeErr (body : String)
  | okNone
  | okString (body : String)
  | okJson (v : JVal)
deriving Repr

/-- Did `do` return a non-nil error? -/
def DoResult.isError : DoResult → Bool
  | .transportErr _ => true
  | .errResp _ => true
  | .apiErr _ _ => true
  | .jsonDecodeErr _ => true
  | _ => false

/-- The HTTP transport and the JSON decoders `do` applies to response
bodies, supplied as an environment. -/
structure ObsTransport where
  /-- Go `c.http.Do` (error on transport failure). -/
  roundTrip : HttpRequest → Except String HttpResponse
  /-- Go `json.NewDecoder(resp.Body).Decode(&errResp)` on an error body. -/
  decodeErrResp : String → Option ErrorResponse
  /-- What `io.ReadAll(resp.Body)` returns after the failed
  `ErrorResponse` decode: the decoder has already consumed the bytes it
  read from the stream, so this is only the unread remainder of the
  body — empty whenever the decoder's first read took the whole body
  (any typical small body). -/
  errRemainder : String → String
  /-- Go `json.NewDecoder(resp.Body).Decode(v)` on a success body. -/
  decodeJson : String → Option JVal

/-- Go `obsidian.Client` (the fields `do` and the services read). -/
structure ObsClient where
  baseURL : String
  token : String
deriving Repr, DecidableEq

/-- The first line of `do`:
`req.Header.Set("Authorization", "Bearer "+c.token)`. -/
def withAuth (c : ObsClient) (req : HttpRequest) : HttpRequest :=
  { req with
    headers := setHeader req.headers "Authorization" ("Bearer " ++ c.token) }

/-- Go `Client.do`: set the bearer header, issue the call, classify.
Returns the result together with the requests actually issued on the
wire. -/
def clientDo (c : ObsClient) (tr : ObsTransport) (target : DoTarget)
    (req : HttpRequest) : DoResult × List HttpRequest :=
  let req := withAuth c req
  match tr.roundTrip req with
  | .error e => (.transportErr e, [req])
  | .ok resp =>
    if resp.status ≥ 400 then
      match tr.decodeErrResp resp.body with
      | some e => (.errResp e, [req])
      | none => (.apiErr resp.status (tr.errRemainder resp.body), [req])
    else
      match target with
      | .noTarget => (.okNone, [req])
      | .strTarget => (.okString resp.body, [req])
      | .jsonTarget =>
        match tr.decodeJson resp.body with
        | some v => (.okJson v, [req])
        | none => (.jsonDecodeErr resp.body, [req])

/-- A request with no headers and the given body
(`http.NewRequestWithContext`). -/
def newRequest (method url body : String) : HttpRequest :=
  { method := method, url := url, headers := [], body := body }

/-- Go `ActiveFileService.Get`. -/
def activeFileGet (c : ObsClient) (tr : ObsTransport) : DoResult × List HttpRequest :=
  clientDo c tr .strTarget (newRequest "GET" (c.baseURL ++ "active/") "")

/-- Go `ActiveFileService.GetNote`. -/
def activeFileGetNote (c : ObsClient) (tr : ObsTransport) : DoResult × List HttpRequest :=
  let req := newRequest "GET" (c.baseURL ++ "active/") ""
  clientDo c tr .jsonTarget
    { req with headers := setHeader req.headers "Accept" "application/vnd.olrapi.note+json" }

/-- Go `ActiveFileService.Append`. -/
def activeFileAppend (c : ObsClient) (tr : ObsTransport) (content : String) :
    DoResult × List HttpRequest :=
  let req := newRequest "POST" (c.baseURL ++ "active/") content
  clientDo c tr .noTarget
    { req with headers := setHeader req.headers "Content-Type" "text/markdown" }

/-- Go `ActiveFileService.Delete`. -/
def activeFileDelete (c : ObsClient) (tr : ObsTransport) : DoResult × List HttpRequest :=
  clientDo c tr .noTarget (newRequest "DELETE" (c.baseURL ++ "active/") "")

/-- Go `ActiveFileService.Patch`. -/
def activeFilePatch (c : ObsClient) (tr : ObsTransport)
    (op targetType target content : String) : DoResult × List HttpRequest :=
  let req := newRequest "PATCH" (c.baseURL ++ "active/") content
  let hs := setHeader (setHeader (setHeader (setHeader req.headers
    "Operation" op) "Target-Type" targetType) "Target" target) "Content-Type" "text/markdown"
  clientDo c tr .noTarget { req with headers := hs }

/-- Go `VaultService.List`. -/
def vaultList (c : ObsClient) (tr : ObsTransport) (path : String) :
    DoResult × List HttpRequest :=
  clientDo c tr .jsonTarget (newRequest "GET" (c.baseURL ++ "vault/" ++ path) "")

/-- Go `VaultService.Get`. -/
def vaultGet (c : ObsClient) (tr : ObsTransport) (path : String) :
    DoResult × List HttpRequest :=
  clientDo c tr .strTarget (newRequest "GET" (c.baseURL ++ "vault/" ++ path) "")

/-- Go `VaultService.GetNote`. -/
def vaultGetNote (c : ObsClient) (tr : ObsTransport) (path : String) :
    DoResult × List HttpRequest :=
  let req := newRequest "GET" (c.baseURL ++ "vault/" ++ path) ""
  clientDo c tr .jsonTarget
    { req with headers := setHeader req.headers "Accept" "application/vnd.olrapi.note+json" }

/-- Go `VaultService.Create`. -/
def vaultCreate (c : ObsClient) (tr : ObsTransport) (path content : String) :
    DoResult × List HttpRequest :=
  let req := newRequest "PUT" (c.baseURL ++ "vault/" ++ path) content
  clientDo c tr .noTarget
    { req with headers := setHeader req.headers "Content-Type" "text/markdown" }

/-- Go `VaultService.Delete`. -/
def vaultDelete (c : ObsClient) (tr : ObsTransport) (path : String) :
    DoResult × List HttpRequest :=
  clientDo c tr .noTarget (newRequest "DELETE" (c.baseURL ++ "vault/" ++ path) "")

/-- Go `PeriodicService.GetCurrent`. -/
def periodicGetCurrent (c : ObsClient) (tr : ObsTransport) (period : String) :
    DoResult × List HttpRequest :=
  clientDo c tr .strTarget (newRequest "GET" (c.baseURL ++ "periodic/" ++ period ++ "/") "")

/-- Go `PeriodicService.GetCurrentNote`. -/
def periodicGetCurrentNote (c : ObsClient) (tr : ObsTransport) (period : String) :
    DoResult × List HttpRequest :=
  let req := newRequest "GET" (c.baseURL ++ "periodic/" ++ period ++ "/") ""
  clientDo c tr .jsonTarget
    { req with headers := setHeader req.headers "Accept" "application/vnd.olrapi.note+json" }

/-- Go `PeriodicService.AppendToCurrent`. -/
def periodicAppendToCurrent (c : ObsClient) (tr : ObsTransport) (period content : String) :
    DoResult × List HttpRequest :=
  let req := newRequest "POST" (c.baseURL ++ "periodic/" ++ period ++ "/") content
  clientDo c tr .noTarget
    { req with headers := setHeader req.headers "Content-Type" "text/markdown" }

/-- Go `PeriodicService.PatchCurrent`. -/
def periodicPatchCurrent (c : ObsClient) (tr : ObsTransport)
    (period op targetType target content : String) : DoResult × List HttpRequest :=
  let req := newRequest "PATCH" (c.baseURL ++ "periodic/" ++ period ++ "/") content
  let hs := setHeader (setHeader (setHeader (setHeader req.headers
    "Operation" op) "Target-Type" targetType) "Target" target) "Content-Type" "text/markdown"
  clientDo c tr .noTarget { req with headers := hs }

/-- Go `PeriodicService.DeleteCurrent`. -/
def periodicDeleteCurrent (c : ObsClient) (tr : ObsTransport) (period : String) :
    DoResult × List HttpRequest :=
  clientDo c tr .noTarget (newRequest "DELETE" (c.baseURL ++ "periodic/" ++ period ++ "/") "")

/-- Go `PeriodicService.Get` (a specific date). -/
def periodicGet (c : ObsClient) (tr : ObsTransport) (period : String)
    (year month day : Int) : DoResult × List HttpRequest :=
  clientDo c tr .strTarget (newRequest "GET"
    (c.baseURL ++ "periodic/" ++ period ++ "/" ++ toString year ++ "/"
      ++ toString month ++ "/" ++ toString day ++ "/") "")

/-- Go `SearchService.Simple` (the `query`/`contextLength` query string of
`url.Values.Encode`, with `contextLength` present only when positive). -/
def searchSimple (c : ObsClient) (tr : ObsTransport) (query : String)
    (contextLength : Int) : DoResult × List HttpRequest :=
  let qs := if contextLength > 0
    then "?contextLength=" ++ toString contextLength ++ "&query=" ++ query
    else "?query=" ++ query
  clientDo c tr .jsonTarget (newRequest "POST" (c.baseURL ++ "search/simple/" ++ qs) "")

/-- Go `SearchService.JsonLogic`.  The method first `json.Marshal`s its
`query interface{}` argument (a failure there issues no request); the
embedding takes the marshaled body. -/
def searchJsonLogic (c : ObsClient) (tr : ObsTransport) (queryJson : String) :
    DoResult × List HttpRequest :=
  let req := newRequest "POST" (c.baseURL ++ "search/") queryJson
  clientDo c tr .jsonTarget
    { req with headers := setHeader req.headers "Content-Type" "application/vnd.olrapi.jsonlogic+json" }

/-- Go `SearchService.Dataview`. -/
def searchDataview (c : ObsClient) (tr : ObsTransport) (dql : String) :
    DoResult × List HttpRequest :=
  let req := newRequest "POST" (c.baseURL ++ "search/") dql
  clientDo c tr .jsonTarget
    { req with headers := setHeader req.headers "Content-Type" "application/vnd.olrapi.dataview.dql+txt" }

/-- Go `CommandService.List`. -/
def commandsList (c : ObsClient) (tr : ObsTransport) : DoResult × List HttpRequest :=
  clientDo c tr .jsonTarget (newRequest "GET" (c.baseURL ++ "commands/") "")

/-- Go `CommandService.Execute`. -/
def commandsExecute (c : ObsClient) (tr : ObsTransport) (commandID : String) :
    DoResult × List HttpRequest :=
  clientDo c tr .noTarget (newRequest "POST" (c.baseURL ++ "commands/" ++ commandID ++ "/") "")

/-- Go `OpenService.File`: POST to `open/{filename}`, adding the
`newLeaf=true` query only when `newLeaf` is set. -/
def openFile (c : ObsClient) (tr : ObsTransport) (filename : String) (newLeaf : Bool) :
    DoResult × List HttpRequest :=
  clientDo c tr .noTarget (newRequest "POST"
    (c.baseURL ++ "open/" ++ filename ++ (if newLeaf then "?newLeaf=true" else "")) "")

/-! ## Obsidian MCP tool handlers (`cmd/obsidianmcp/tools.go`)

Each registered tool handler wraps exactly one service-method call; a
handler's request list is the wire requests of that one call.  The
handlers read arguments through `getArgs` (a failed map assertion
yields an empty map) and unchecked `_`-assertions default to the zero
value. -/

/-- JSON helpers the handlers delegate to the standard library:
`json.Unmarshal` of the JsonLogic query string into `interface{}`
(with error text), the never-failing `json.Marshal` of that decoded
value inside `Search.JsonLogic`, and `err.Error()` rendering of a
service error. -/
structure ObsMcpEnv where
  jsonUnmarshal : String → Except String JVal
  jsonMarshal : JVal → String
  errStr : DoResult → String

/-- Wrap a JSON-returning service call as a tool result
(`mcp.NewToolResultJSON` on success, `mcp.NewToolResultError` with the
given prefix otherwise).  A `jsonTarget` call only ever succeeds with
`okJson`; the remaining success arms are unreachable defaults. -/
def doJsonResult (pfx : String) (env : ObsMcpEnv) (r : DoResult × List HttpRequest) :
    ToolResult JVal × List HttpRequest :=
  (match r.1 with
   | .okJson v => .jsonR v
   | .okNone => .jsonR .null
   | .okString b => .jsonR (.jstr b)
   | e => .errorR (pfx ++ env.errStr e), r.2)

/-- Wrap a result-less service call as a tool result
(`mcp.NewToolResultText` with the fixed message on success). -/
def doUnitResult (pfx okMsg : String) (env : ObsMcpEnv)
    (r : DoResult × List HttpRequest) : ToolResult JVal × List HttpRequest :=
  (if r.1.isError then .errorR (pfx ++ env.errStr r.1) else .textR okMsg, r.2)

/-- Go `registerGetActiveFile`'s handler: `ActiveFile.GetNote`. -/
def getActiveFileHandler (c : ObsClient) (tr : ObsTransport) (env : ObsMcpEnv)
    (_req : ReqArgs) : ToolResult JVal × List HttpRequest :=
  doJsonResult "failed to get active file: " env (activeFileGetNote c tr)

/-- Go `registerAppendActiveFile`'s handler: `content` must be a
string, then `ActiveFile.Append`. -/
def appendActiveFileHandler (c : ObsClient) (tr : ObsTransport) (env : ObsMcpEnv)
    (req : ReqArgs) : ToolResult JVal × List HttpRequest :=
  let args := getArgs req
  match argStr args "content" with
  | none => (.errorR "content must be a string", [])
  | some content =>
    doUnitResult "failed to append to active file: " "Content appended successfully" env
      (activeFileAppend c tr content)

/-- Go `registerPatchActiveFile`'s handler: all four arguments are
read with unchecked assertions, then `ActiveFile.Patch`. -/
def patchActiveFileHandler (c : ObsClient) (tr : ObsTransport) (env : ObsMcpEnv)
    (req : ReqArgs) : ToolResult JVal × List HttpRequest :=
  let args := getArgs req
  doUnitResult "failed to patch active file: " "File patched successfully" env
    (activeFilePatch c tr ((argStr args "operation").getD "")
      ((argStr args "target_type").getD "") ((argStr args "target").getD "")
      ((argStr args "content").getD ""))

/-- Go `registerSearchSimple`'s handler: `Search.Simple`. -/
def searchSimpleHandler (c : ObsClient) (tr : ObsTransport) (env : ObsMcpEnv)
    (req : ReqArgs) : ToolResult JVal × List HttpRequest :=
  let args := getArgs req
  doJsonResult "failed to search: " env
    (searchSimple c tr ((argStr args "query").getD "") ((argNum args "context_length").getD 0))

/-- Go `registerSearchJSONLogic`'s handler: unmarshal the query string
(no call on failure), then `Search.JsonLogic`, which marshals the
decoded value as the request body. -/
def searchJSONLogicHandler (c : ObsClient) (tr : ObsTransport) (env : ObsMcpEnv)
    (req : ReqArgs) : ToolResult JVal × List HttpRequest :=
  let args := getArgs req
  match env.jsonUnmarshal ((argStr args "query").getD "") with
  | .error e => (.errorR ("invalid JSON logic query: " ++ e), [])
  | .ok q => doJsonResult "failed to search: " env (searchJsonLogic c tr (env.jsonMarshal q))

/-- Go `registerGetDailyNote`'s handler: `Periodic.GetCurrentNote`
with period `daily`. -/
def getDailyNoteHandler (c : ObsClient) (tr : ObsTransport) (env : ObsMcpEnv)
    (_req : ReqArgs) : ToolResult JVal × List HttpRequest :=
  doJsonResult "failed to get daily note: " env (periodicGetCurrentNote c tr "daily")

/-- Go `registerGetFile`'s handler: `Vault.GetNote`. -/
def getFileHandler (c : ObsClient) (tr : ObsTransport) (env : ObsMcpEnv)
    (req : ReqArgs) : ToolResult JVal × List HttpRequest :=
  let args := getArgs req
  doJsonResult "failed to get file: " env (vaultGetNote c tr ((argStr args "path").getD ""))

/-- Go `registerListFiles`'s handler: `Vault.List` (whose decoded
value carries the `files` field the handler returns). -/
def listFilesHandler (c : ObsClient) (tr : ObsTransport) (env : ObsMcpEnv)
    (req : ReqArgs) : ToolResult JVal × List HttpRequest :=
  let args := getArgs req
  doJsonResult "failed to list files: " env (vaultList c tr ((argStr args "path").getD ""))

/-- Go `registerCreateOrUpdateFile`'s handler: `Vault.Create`. -/
def createOrUpdateFileHandler (c : ObsClient) (tr : ObsTransport) (env : ObsMcpEnv)
    (req : ReqArgs) : ToolResult JVal × List HttpRequest :=
  let args := getArgs req
  doUnitResult "failed to create/update file: " "File created/updated successfully" env
    (vaultCreate c tr ((argStr args "path").getD "") ((argStr args "content").getD ""))

/-- Go `registerOpenFile`'s handler: `Open.File`. -/
def openFileHandler (c : ObsClient) (tr : ObsTransport) (env : ObsMcpEnv)
    (req : ReqArgs) : ToolResult JVal × List HttpRequest :=
  let args := getArgs req
  doUnitResult "failed to open file: " "File opened successfully" env
    (openFile c tr ((argStr args "path").getD "") ((argBool args "new_leaf").getD false))

/-! ## Calendar MCP tools (`pkg/calendarmcp/tools.go`) -/

/-- Go `googleCalendar.EventDateTime` (fields the handlers set). -/
structure CalEventDateTime where
  date : String
  dateTime : String
deriving Repr, DecidableEq

/-- Go `googleCalendar.Event` (fields the handlers set; `End` is named
`finish` here because `end` is reserved). -/
structure CalEvent where
  summary : String
  description : String
  location : String
  start : Option CalEventDateTime
  finish : Option CalEventDateTime
  recurrence : List String
deriving Repr, DecidableEq

/-- Go `googleCalendar.CalendarListEntry` (field the handlers read). -/
structure CalListEntry where
  id : String
deriving Repr, DecidableEq

/-- Outcomes of the `calendar.API` methods, the `time` parsing and
formatting the handlers delegate to the standard library, and the
(non-failing, struct-of-strings) `json.Marshal` of results. -/
structure CalEnv where
  listCalendars : Except String (List CalListEntry)
  listEvents : String → String → String → Int → Except String String
  createEvent : String → CalEvent → Except String String
  patchEvent : String → String → CalEvent → Except String String
  deleteEvent : String → String → Except String Unit
  moveEvent : String → String → String → Except String String
  /-- Go `time.Parse("2006-01-02", ·)`. -/
  parseDate : String → Option Int
  /-- Go `time.Parse(time.RFC3339, ·)`, with the parse error text. -/
  parseRFC3339 : String → Except String Int
  /-- Go `t.Format("2006-01-02")`. -/
  fmtDate : Int → String
  /-- Go `t.Format(time.RFC3339)`. -/
  fmtRFC3339 : Int → String
  /-- Go `json.Unmarshal` of a string into `[]string`, with error text. -/
  unmarshalStrList : String → Except String (List String)
  /-- Go `json.Marshal` of the entry list returned by `calendar_list`. -/
  marshalEntries : List CalListEntry → String

/-- A call made to the `calendar.API` client.  The event-returning
methods' results are carried pre-marshaled (`Except String String`) in
`CalEnv`, since the handlers only marshal them to text. -/
inductive CalCall where
  | listCalendars
  | listEvents (cid tmin tmax : String) (mx : Int)
  | createEvent (cid : String) (ev : CalEvent)
  | patchEvent (cid eid : String) (ev : CalEvent)
  | deleteEvent (cid eid : String)
  | moveEvent (cid eid dst : String)
deriving Repr, DecidableEq

/-- The `ErrAccessDenied` message text. -/
def errAccessDenied : String := "access to calendar is not allowed by configuration"

/-- Go `defaultCalendarID`. -/
def defaultCalendarID : String := "primary"

/-- The handler `config map[string][]string`; `config["calendars"]`
of a map without the key is the nil slice. -/
abbrev CalConfig := List (String × List String)

/-- Go `config["calendars"]`. -/
def calConfigCalendars (config : CalConfig) : List String :=
  (config.lookup "calendars").getD []

/-- Go `isCalendarAllowed`: an empty allowlist allows everything,
otherwise membership. -/
def isCalendarAllowed (calendarID : String) (allowedCalendars : List String) : Bool :=
  if allowedCalendars.length = 0 then true
  else allowedCalendars.any (· = calendarID)

/-- Go `checkCalendarAccess`: `none` when allowed, otherwise the
`fmt.Errorf("%w: %s", ErrAccessDenied, calendarID)` message. -/
def checkCalendarAccess (calendarID : String) (config : CalConfig) : Option String :=
  if isCalendarAllowed calendarID (calConfigCalendars config) then none
  else some (errAccessDenied ++ ": " ++ calendarID)

/-- The shared `calendarID := "primary"; if val, ok :=
args["calendar"].(string); ok && val != ""` prologue. -/
def calendarArg (args : List (String × ArgVal)) : String :=
  match argStr args "calendar" with
  | some v => if v ≠ "" then v else defaultCalendarID
  | none => defaultCalendarID

/-- Go `parseRecurrence`: a non-empty string starting with `[` is
unmarshaled as a JSON list, another non-empty string is a singleton,
a `[]interface{}` keeps its string elements (`nil` when none),
anything else (including an absent argument) is `nil`. -/
def parseRecurrence (env : CalEnv) (v : Option ArgVal) : Except String (Option (List String)) :=
  match v with
  | some (.s val) =>
    if val ≠ "" then
      if val.length > 0 ∧ val.front = '[' then
        match env.unmarshalStrList val with
        | .error e => .error e
        | .ok r => .ok (some r)
      else .ok (some [val])
    else .ok none
  | some (.list vs) =>
    let collected := vs.filterMap fun x => match x with | .s s => some s | _ => none
    .ok (if collected.isEmpty then none else some collected)
  | _ => .ok none

/-- Go `parseEventDateTime`: an all-day `2006-01-02` date gives a
`Date`-only `EventDateTime`, otherwise RFC 3339 gives a `DateTime`,
otherwise the RFC 3339 parse error. -/
def parseEventDateTime (env : CalEnv) (val : String) : Except String CalEventDateTime :=
  match env.parseDate val with
  | some t => .ok { date := env.fmtDate t, dateTime := "" }
  | none =>
    match env.parseRFC3339 val with
    | .error e => .error e
    | .ok t => .ok { date := "", dateTime := env.fmtRFC3339 t }

/-- Go `CalendarListHandler`: list, filter by the allowlist, marshal. -/
def CalendarListHandler (env : CalEnv) (config : CalConfig) (_req : ReqArgs) :
    ToolResult String × List CalCall :=
  match env.listCalendars with
  | .error e => (.errorR ("failed to list calendars: " ++ e), [.listCalendars])
  | .ok lst =>
    let filteredList := lst.filter fun item =>
      isCalendarAllowed item.id (calConfigCalendars config)
    if filteredList.length = 0 then (.textR "[]", [.listCalendars])
    else (.textR (env.marshalEntries filteredList), [.listCalendars])

/-- Go `CalendarListEventsHandler`. -/
def CalendarListEventsHandler (env : CalEnv) (config : CalConfig) (req : ReqArgs) :
    ToolResult String × List CalCall :=
  match req with
  | .notMap => (.errorR "arguments must be a map", [])
  | .map args =>
    let calendarID := calendarArg args
    match checkCalendarAccess calendarID config with
    | some msg => (.errorR msg, [])
    | none =>
      let timeMin := (argStr args "timeMin").getD ""
      let timeMax := (argStr args "timeMax").getD ""
      let maxResults := (argNum args "maxResults").getD 0
      match env.listEvents calendarID timeMin timeMax maxResults with
      | .error e => (.errorR ("failed to list events: " ++ e),
          [.listEvents calendarID timeMin timeMax maxResults])
      | .ok evs => (.textR evs, [.listEvents calendarID timeMin timeMax maxResults])

/-- Go `CalendarCreateEventHandler`. -/
def CalendarCreateEventHandler (env : CalEnv) (config : CalConfig) (req : ReqArgs) :
    ToolResult String × List CalCall :=
  match req with
  | .notMap => (.errorR "arguments must be a map", [])
  | .map args =>
    let calendarID := calendarArg args
    match checkCalendarAccess calendarID config with
    | some msg => (.errorR msg, [])
    | none =>
      match argStr args "summary" with
      | none => (.errorR "summary is required", [])
      | some summary =>
        match argStr args "startTime" with
        | none => (.errorR "startTime is required", [])
        | some startTimeStr =>
          match argStr args "endTime" with
          | none => (.errorR "endTime is required", [])
          | some endTimeStr =>
            let description := (argStr args "description").getD ""
            let location := (argStr args "location").getD ""
            match parseRecurrence env (lookupArg args "recurrence") with
            | .error e => (.errorR ("failed to parse recurrence: " ++ e), [])
            | .ok recurrence =>
              match parseEventDateTime env startTimeStr with
              | .error e => (.errorR ("invalid startTime format: " ++ e), [])
              | .ok start =>
                match parseEventDateTime env endTimeStr with
                | .error e => (.errorR ("invalid endTime format: " ++ e), [])
                | .ok finish =>
                  let event : CalEvent :=
                    { summary := summary, description := description,
                      location := location, start := some start,
                      finish := some finish, recurrence := recurrence.getD [] }
                  match env.createEvent calendarID event with
                  | .error e => (.errorR ("failed to create event: " ++ e),
                      [.createEvent calendarID event])
                  | .ok ev => (.textR ev, [.createEvent calendarID event])

/-- Go `CalendarPatchEventHandler`. -/
def CalendarPatchEventHandler (env : CalEnv) (config : CalConfig) (req : ReqArgs) :
    ToolResult String × List CalCall :=
  match req with
  | .notMap => (.errorR "arguments must be a map", [])
  | .map args =>
    let calendarID := calendarArg args
    match checkCalendarAccess calendarID config with
    | some msg => (.errorR msg, [])
    | none =>
      match argStr args "eventId" with
      | none => (.errorR "eventId is required", [])
      | some eventID =>
        let base : CalEvent :=
          { summary := (argStr args "summary").getD "",
            description := (argStr args "description").getD "",
            location := (argStr args "location").getD "",
            start := none, finish := none, recurrence := [] }
        let startStep : Except String CalEvent :=
          match argStr args "startTime" with
          | some val =>
            if val ≠ "" then
              match parseEventDateTime env val with
              | .error e => .error ("invalid startTime format: " ++ e)
              | .ok start => .ok { base with start := some start }
            else .ok base
          | none => .ok base
        match startStep with
        | .error msg => (.errorR msg, [])
        | .ok ev1 =>
          let endStep : Except String CalEvent :=
            match argStr args "endTime" with
            | some val =>
              if val ≠ "" then
                match parseEventDateTime env val with
                | .error e => .error ("invalid endTime format: " ++ e)
                | .ok finish => .ok { ev1 with finish := some finish }
              else .ok ev1
            | none => .ok ev1
          match endStep with
          | .error msg => (.errorR msg, [])
          | .ok ev2 =>
            match parseRecurrence env (lookupArg args "recurrence") with
            | .error e => (.errorR ("failed to parse recurrence: " ++ e), [])
            | .ok recurrence =>
              let event := match recurrence with
                | some r => { ev2 with recurrence := r }
                | none => ev2
              match env.patchEvent calendarID eventID event with
              | .error e => (.errorR ("failed to patch event: " ++ e),
                  [.patchEvent calendarID eventID event])
              | .ok ev => (.textR ev, [.patchEvent calendarID eventID event])

/-- Go `CalendarDeleteEventHandler`. -/
def CalendarDeleteEventHandler (env : CalEnv) (config : CalConfig) (req : ReqArgs) :
    ToolResult String × List CalCall :=
  match req with
  | .notMap => (.errorR "arguments must be a map", [])
  | .map args =>
    let calendarID := calendarArg args
    match checkCalendarAccess calendarID config with
    | some msg => (.errorR msg, [])
    | none =>
      match argStr args "eventId" with
      | none => (.errorR "eventId is required", [])
      | some eventID =>
        match env.deleteEvent calendarID eventID with
        | .error e => (.errorR ("failed to delete event: " ++ e),
            [.deleteEvent calendarID eventID])
        | .ok _ => (.textR ("Event " ++ eventID ++ " deleted successfully from calendar "
            ++ calendarID), [.deleteEvent calendarID eventID])

/-- Go `CalendarMoveEventHandler`: the allowlist check runs on the source
calendar, then on the destination, before the one `MoveEvent` call. -/
def CalendarMoveEventHandler (env : CalEnv) (config : CalConfig) (req : ReqArgs) :
    ToolResult String × List CalCall :=
  match req with
  | .notMap => (.errorR "arguments must be a map", [])
  | .map args =>
    let calendarID := calendarArg args
    match checkCalendarAccess calendarID config with
    | some msg => (.errorR msg, [])
    | none =>
      match argStr args "eventId" with
      | none => (.errorR "eventId is required", [])
      | some eventID =>
        match argStr args "destination" with
        | none => (.errorR "destination is required", [])
        | some destinationID =>
          match checkCalendarAccess destinationID config with
          | some msg => (.errorR ("destination calendar: " ++ msg), [])
          | none =>
            match env.moveEvent calendarID eventID destinationID with
            | .error e => (.errorR ("failed to move event: " ++ e),
                [.moveEvent calendarID eventID destinationID])
            | .ok ev => (.textR ev, [.moveEvent calendarID eventID destinationID])

/-! ## Tool registration

The MCP server is embedded as the list of registered tool names.
`gmailmcp.AddTools` and `calendarmcp.AddTools` register fixed names;
`cmd/obsidianmcp` walks its tool registry and registers a tool only
when the loaded configuration's `mcp.tools` map holds `true` for it.
Go iterates the registry map in unspecified order; the embedding fixes
the registry's textual order, which determines the same set of
names. -/

/-- The server's registered tool names. -/
abbrev MCPServerState := List String

/-- Go `s.AddTool`. -/
def addTool (s : MCPServerState) (name : String) : MCPServerState := s ++ [name]

/-- Go `gmailmcp.AddTools`. -/
def gmailAddTools (s : MCPServerState) : MCPServerState :=
  addTool (addTool s "gmail_search") "gmail_read"

/-- Go `calendarmcp.AddTools` (the `config` argument is captured by the
handlers only). -/
def calendarAddTools (s : MCPServerState) (_config : CalConfig) : MCPServerState :=
  addTool (addTool (addTool (addTool (addTool (addTool s
    "calendar_list") "calendar_list_events") "calendar_create_event")
    "calendar_patch_event") "calendar_delete_event") "calendar_move_event"

/-- The `toolRegistry` map keys of `cmd/obsidianmcp/main.go`. -/
def obsidianToolRegistry : List String :=
  ["get_active_file", "append_active_file", "patch_active_file",
   "search_simple", "search_json_logic", "get_daily_note", "get_file",
   "list_files", "create_or_update_file", "open_file"]

/-- The `cfg.MCP.Tools` map (`map[string]bool`). -/
abbrev ToolsMap := List (String × Bool)

/-- The registration loop of `cmd/obsidianmcp/main.go`: register a
registry tool exactly when `cfg.MCP.Tools[name]` is present and
`true` (an absent or `false` entry is skipped). -/
def obsidianRegisterTools (s : MCPServerState) (tools : ToolsMap) : MCPServerState :=
  obsidianToolRegistry.foldl (fun acc name =>
    match tools.lookup name with
    | some true => addTool acc name
    | _ => acc) s

/-! ## Config loading (`config.Load`)

Paths are embedded as empty, relative or absolute component lists
(`filepath` on already-clean paths).  `filepath.Abs` resolves a
relative path against the process working directory, which is passed
in the environment. -/

/-- A file path: the empty string, a relative path, or an absolute
path.  (`rel []` plays the role of `"."`.) -/
inductive GPath where
  | emptyP
  | rel (comps : List String)
  | absP (comps : List String)
deriving Repr, DecidableEq

/-- Go `filepath.IsAbs`. -/
def GPath.isAbs : GPath → Bool
  | .absP _ => true
  | _ => false

/-- Go `filepath.Dir`. -/
def GPath.dir : GPath → GPath
  | .emptyP => .rel []
  | .rel cs => .rel cs.dropLast
  | .absP cs => .absP cs.dropLast

/-- Go `filepath.Join` of a path with a relative path's components. -/
def GPath.join : GPath → List String → GPath
  | .emptyP, q => .rel q
  | .rel cs, q => .rel (cs ++ q)
  | .absP cs, q => .absP (cs ++ q)

/-- Go `filepath.Abs` against the working directory `cwd` (an absolute
component list). -/
def GPath.abs (cwd : List String) : GPath → GPath
  | .emptyP => .absP cwd
  | .rel cs => .absP (cwd ++ cs)
  | .absP cs => .absP cs

/-- The `resolve` closure of `Load`: `""` and absolute paths are kept,
a relative path is joined to the config file's directory and made
absolute. -/
def resolvePath (cwd : List String) (configDir : GPath) : GPath → GPath
  | .emptyP => .emptyP
  | .absP cs => .absP cs
  | .rel cs => (configDir.join cs).abs cwd

/-- The configuration struct (fields of `config.Config`; the MCP tool
map is `ToolsMap`). -/
structure BttkConfig where
  obsidianURL : String
  obsidianCert : GPath
  obsidianAPIKey : String
  gmailEnabled : Bool
  gmailCredentialsFile : GPath
  gmailTokenFile : GPath
  calendarEnabled : Bool
  calendarCredentialsFile : GPath
  calendarTokenFile : GPath
  calendars : List String
  mcpTools : ToolsMap
deriving Repr, DecidableEq

/-- The file system and XDG search `Load` interacts with. -/
structure ConfigEnv where
  /-- Go `xdg.SearchConfigFile` (`none`: not found, an error). -/
  xdgSearch : String → Option GPath
  /-- Go `os.Open` + `json.Decode` of the file at a path (`none`: either
  step fails). -/
  readConfig : GPath → Option BttkConfig
  /-- The process working directory (`filepath.Abs`' reference). -/
  cwd : List String

/-- Default an empty path to a file name. -/
def dfltPath (p : GPath) (d : String) : GPath :=
  if p = .emptyP then .rel [d] else p

/-- Go `config.Load` of `pkg/config/config.go` (the `bttk-mcp` version):
empty argument searches XDG for `bttk-mcp/config.json`; then the file
is decoded, Gmail defaults applied, cert and Gmail paths resolved,
Calendar defaults applied, Calendar paths resolved. -/
def Load (env : ConfigEnv) (path : GPath) : Option BttkConfig := do
  let path ← if path = .emptyP then env.xdgSearch "bttk-mcp/config.json" else some path
  let cfg ← env.readConfig path
  let res := resolvePath env.cwd path.dir
  let cfg := { cfg with
    gmailCredentialsFile := dfltPath cfg.gmailCredentialsFile "credentials.json",
    gmailTokenFile := dfltPath cfg.gmailTokenFile "token.json" }
  let cfg := { cfg with
    obsidianCert := res cfg.obsidianCert,
    gmailCredentialsFile := res cfg.gmailCredentialsFile,
    gmailTokenFile := res cfg.gmailTokenFile }
  let cfg := { cfg with
    calendarCredentialsFile := dfltPath cfg.calendarCredentialsFile "credentials.json",
    calendarTokenFile := dfltPath cfg.calendarTokenFile "token.json" }
  pure { cfg with
    calendarCredentialsFile := res cfg.calendarCredentialsFile,
    calendarTokenFile := res cfg.calendarTokenFile }

/-! ## Specification-side definitions

These do not embed source code; they state properties the theorems
below compare the embedding against. -/

/-- Specification of one body's truncation step (claim C7's reading of
`processPartBody`, with the MIME test the code actually performs):
`BodyOutSpec maxBytes mt cur b b2 r` says the body `b` of a part with
MIME type `mt`, processed with `r` retained decoded bytes (the
appended marker excluded), yields `b2`; all fields other than `data`
are unchanged in every case. -/
inductive BodyOutSpec (maxBytes : Int) (mt : GoStr) (cur : Int) (b : MessagePartBody) :
    MessagePartBody → Int → Prop where
  | nonText (h : isTextMime mt = false) :
      BodyOutSpec maxBytes mt cur b { b with data := [] } 0
  | undecodable (ht : isTextMime mt = true) (h : decodeB64Url b.data = none) :
      BodyOutSpec maxBytes mt cur b b 0
  | exhausted (d : List Nat) (ht : isTextMime mt = true)
      (h : decodeB64Url b.data = some d) (hr : maxBytes - cur ≤ 0) :
      BodyOutSpec maxBytes mt cur b { b with data := [] } 0
  | truncated (d : List Nat) (ht : isTextMime mt = true)
      (h : decodeB64Url b.data = some d) (hr : 0 < maxBytes - cur)
      (hl : (d.length : Int) > maxBytes - cur) :
      BodyOutSpec maxBytes mt cur b
        { b with data := d.take (maxBytes - cur).toNat ++ truncMarker } (maxBytes - cur)
  | whole (d : List Nat) (ht : isTextMime mt = true)
      (h : decodeB64Url b.data = some d) (hr : 0 < maxBytes - cur)
      (hl : ¬(d.length : Int) > maxBytes - cur) :
      BodyOutSpec maxBytes mt cur b { b with data := d } d.length

/-- Lift `BodyOutSpec` over the caller's guard in `processPart`: a nil
body and a body with empty data are left alone. -/
inductive BodyStepSpec (maxBytes : Int) (mt : GoStr) (cur : Int) :
    Option MessagePartBody → Option MessagePartBody → Int → Prop where
  | noBody : BodyStepSpec maxBytes mt cur none none 0
  | emptyData (b : MessagePartBody) (h : b.data = []) :
      BodyStepSpec maxBytes mt cur (some b) (some b) 0
  | processed (b b2 : MessagePartBody) (r : Int) (h : b.data ≠ [])
      (hs : BodyOutSpec maxBytes mt cur b b2 r) :
      BodyStepSpec maxBytes mt cur (some b) (some b2) r

mutual
/-- Specification of the whole pass: `PartOutSpec maxBytes cur p p2 r`
says the pass entered part `p` with counter `cur`, retained `r`
decoded text bytes in its subtree, and produced `p2` with every field
but the bodies' `data` unchanged (the counter after the subtree is
`cur + r`). -/
inductive PartOutSpec (maxBytes : Int) : Int → MessagePart → MessagePart → Int → Prop where
  | mk (pid mt fn : GoStr) (hd : List (GoStr × GoStr))
      (body body2 : Option MessagePartBody) (parts parts2 : MessagePartList)
      (cur r1 r2 : Int)
      (hb : BodyStepSpec maxBytes mt cur body body2 r1)
      (hp : PartsOutSpec maxBytes (cur + r1) parts parts2 r2) :
      PartOutSpec maxBytes cur (.mk pid mt fn hd body parts)
        (.mk pid mt fn hd body2 parts2) (r1 + r2)

/-- Go `PartOutSpec` over a list of sibling parts, threading the
counter. -/
inductive PartsOutSpec (maxBytes : Int) : Int → MessagePartList → MessagePartList → Int → Prop where
  | nil (cur : Int) : PartsOutSpec maxBytes cur .nil .nil 0
  | cons (cur : Int) (p p2 : MessagePart) (ps ps2 : MessagePartList) (r1 r2 : Int)
      (hp : PartOutSpec maxBytes cur p p2 r1)
      (hps : PartsOutSpec maxBytes (cur + r1) ps ps2 r2) :
      PartsOutSpec maxBytes cur (.cons p ps) (.cons p2 ps2) (r1 + r2)
end

/-- Is an `Except` a success? -/
def exceptOk : Except ε α → Bool
  | .ok _ => true
  | .error _ => false

/-- Claim C5's "arguments pass validation" for `gmail_search`. -/
def gmailSearchValid (req : ReqArgs) : Bool :=
  match req with
  | .map args => (argStr args "query").isSome
  | .notMap => false

/-- Claim C5's "arguments pass validation" for `gmail_read`. -/
def gmailReadValid (req : ReqArgs) : Bool :=
  match req with
  | .map args => (argStr args "messageId").isSome
  | .notMap => false

/-- Validation for `calendar_list_events`: a map whose calendar passes
the allowlist. -/
def calListEventsValid (config : CalConfig) (req : ReqArgs) : Bool :=
  match req with
  | .map args => (checkCalendarAccess (calendarArg args) config).isNone
  | .notMap => false

/-- Validation for `calendar_create_event`. -/
def calCreateValid (env : CalEnv) (config : CalConfig) (req : ReqArgs) : Bool :=
  match req with
  | .notMap => false
  | .map args =>
    (checkCalendarAccess (calendarArg args) config).isNone
    && (argStr args "summary").isSome
    && (match argStr args "startTime", argStr args "endTime" with
        | some s, some e =>
          exceptOk (parseRecurrence env (lookupArg args "recurrence"))
          && exceptOk (parseEventDateTime env s)
          && exceptOk (parseEventDateTime env e)
        | _, _ => false)

/-- Validation for `calendar_patch_event`: the optional time arguments
must parse when present and non-empty. -/
def calPatchValid (env : CalEnv) (config : CalConfig) (req : ReqArgs) : Bool :=
  match req with
  | .notMap => false
  | .map args =>
    (checkCalendarAccess (calendarArg args) config).isNone
    && (argStr args "eventId").isSome
    && (match argStr args "startTime" with
        | some v => v = "" || exceptOk (parseEventDateTime env v)
        | none => true)
    && (match argStr args "endTime" with
        | some v => v = "" || exceptOk (parseEventDateTime env v)
        | none => true)
    && exceptOk (parseRecurrence env (lookupArg args "recurrence"))

/-- Validation for `calendar_delete_event`. -/
def calDeleteValid (config : CalConfig) (req : ReqArgs) : Bool :=
  match req with
  | .map args =>
    (checkCalendarAccess (calendarArg args) config).isNone
    && (argStr args "eventId").isSome
  | .notMap => false

/-- Claim C5's "arguments pass validation" for `append_active_file`. -/
def appendActiveFileValid (req : ReqArgs) : Bool :=
  (argStr (getArgs req) "content").isSome

/-- Claim C5's "arguments pass validation" for `search_json_logic`. -/
def searchJSONLogicValid (env : ObsMcpEnv) (req : ReqArgs) : Bool :=
  exceptOk (env.jsonUnmarshal ((argStr (getArgs req) "query").getD ""))

/-- Validation for `calendar_move_event`: both calendars must pass the
allowlist. -/
def calMoveValid (config : CalConfig) (req : ReqArgs) : Bool :=
  match req with
  | .map args =>
    (checkCalendarAccess (calendarArg args) config).isNone
    && (argStr args "eventId").isSome
    && (match argStr args "destination" with
        | some dst => (checkCalendarAccess dst config).isNone
        | none => false)
  | .notMap => false

/-! # Theorems -/

/-! ## The truncation pass (claim C7) -/

/-- Go `processPartBody` realizes the one-body specification, retaining
exactly the counter increment. -/
theorem processPartBody_spec (mt : GoStr) (b : MessagePartBody) (maxBytes cur : Int) :
    BodyOutSpec maxBytes mt cur b (processPartBody mt b maxBytes cur).1
      ((processPartBody mt b maxBytes cur).2 - cur) := by
  unfold processPartBody
  by_cases ht : isTextMime mt
  · simp only [ht, not_true_eq_false, if_false]
    cases hd : decodeB64Url b.data with
    | none =>
      simpa using BodyOutSpec.undecodable ht hd
    | some d =>
      by_cases hr : maxBytes - cur ≤ 0
      · simpa [hr] using BodyOutSpec.exhausted d ht hd hr
      · by_cases hl : (d.length : Int) > maxBytes - cur
        · simp only [hr, if_false, hl, if_true]
          exact BodyOutSpec.truncated d ht hd (by omega) hl
        · simp only [hr, if_false, hl, if_true]
          have : cur + (d.length : Int) - cur = (d.length : Int) := by omega
          rw [this]
          exact BodyOutSpec.whole d ht hd (by omega) hl
  · simpa [ht] using @BodyOutSpec.nonText maxBytes mt cur b (by simpa using ht)

/-- The counter never decreases. -/
theorem processPartBody_mono (mt : GoStr) (b : MessagePartBody) (maxBytes cur : Int) :
    cur ≤ (processPartBody mt b maxBytes cur).2 := by
  unfold processPartBody
  by_cases ht : isTextMime mt
  · simp only [ht, not_true_eq_false, if_false]
    cases hd : decodeB64Url b.data with
    | none => simp
    | some d =>
      by_cases hr : maxBytes - cur ≤ 0
      · simp [hr]
      · by_cases hl : (d.length : Int) > maxBytes - cur
        · simp only [hr, if_false, hl, if_true]; omega
        · simp only [hr, if_false, hl, if_true]
          have : (0:Int) ≤ (d.length : Int) := Int.ofNat_nonneg _
          omega
  · simp [ht]

/-- The counter never exceeds the budget. -/
theorem processPartBody_le (mt : GoStr) (b : MessagePartBody) (maxBytes cur : Int)
    (h : cur ≤ maxBytes) : (processPartBody mt b maxBytes cur).2 ≤ maxBytes := by
  unfold processPartBody
  by_cases ht : isTextMime mt
  · simp only [ht, not_true_eq_false, if_false]
    cases hd : decodeB64Url b.data with
    | none => simpa
    | some d =>
      by_cases hr : maxBytes - cur ≤ 0
      · simpa [hr]
      · by_cases hl : (d.length : Int) > maxBytes - cur
        · simp [hr, hl]
        · simp only [hr, if_false, hl, if_true]; omega
  · simpa [ht]

mutual
/-- Go `processPart` realizes the tree specification. -/
theorem processPart_spec (maxBytes : Int) (p : MessagePart) (cur : Int) :
    PartOutSpec maxBytes cur p (processPart maxBytes p cur).1
      ((processPart maxBytes p cur).2 - cur) := by
  cases p with
  | mk pid mt fn hd body parts =>
    cases body with
    | none =>
      have hps := processParts_spec maxBytes parts cur
      have h := PartOutSpec.mk pid mt fn hd none none parts
        (processParts maxBytes parts cur).1 cur 0
        ((processParts maxBytes parts cur).2 - cur)
        (.noBody) (by simpa using hps)
      simpa [processPart] using h
    | some b =>
      by_cases hb : b.data = []
      · have hps := processParts_spec maxBytes parts cur
        have h := PartOutSpec.mk pid mt fn hd (some b) (some b) parts
          (processParts maxBytes parts cur).1 cur 0
          ((processParts maxBytes parts cur).2 - cur)
          (.emptyData b hb) (by simpa using hps)
        simpa [processPart, hb] using h
      · have hpb := processPartBody_spec mt b maxBytes cur
        have hps := processParts_spec maxBytes parts (processPartBody mt b maxBytes cur).2
        have h := PartOutSpec.mk pid mt fn hd (some b)
          (some (processPartBody mt b maxBytes cur).1) parts
          (processParts maxBytes parts (processPartBody mt b maxBytes cur).2).1 cur
          ((processPartBody mt b maxBytes cur).2 - cur)
          ((processParts maxBytes parts (processPartBody mt b maxBytes cur).2).2
            - (processPartBody mt b maxBytes cur).2)
          (.processed b _ _ hb hpb)
          (by
            have : cur + ((processPartBody mt b maxBytes cur).2 - cur)
                = (processPartBody mt b maxBytes cur).2 := by omega
            rw [this]; exact hps)
        have harith :
            (processPartBody mt b maxBytes cur).2 - cur
              + ((processParts maxBytes parts (processPartBody mt b maxBytes cur).2).2
                - (processPartBody mt b maxBytes cur).2)
            = (processParts maxBytes parts (processPartBody mt b maxBytes cur).2).2 - cur := by
          omega
        rw [harith] at h
        simpa [processPart, hb] using h

/-- Go `processParts` realizes the sibling-list specification. -/
theorem processParts_spec (maxBytes : Int) (ps : MessagePartList) (cur : Int) :
    PartsOutSpec maxBytes cur ps (processParts maxBytes ps cur).1
      ((processParts maxBytes ps cur).2 - cur) := by
  cases ps with
  | nil => simpa [processParts] using @PartsOutSpec.nil maxBytes cur
  | cons p ps =>
    have h1 := processPart_spec maxBytes p cur
    have h2 := processParts_spec maxBytes ps (processPart maxBytes p cur).2
    have h := PartsOutSpec.cons cur p (processPart maxBytes p cur).1 ps
      (processParts maxBytes ps (processPart maxBytes p cur).2).1
      ((processPart maxBytes p cur).2 - cur)
      ((processParts maxBytes ps (processPart maxBytes p cur).2).2
        - (processPart maxBytes p cur).2)
      h1
      (by
        have : cur + ((processPart maxBytes p cur).2 - cur)
            = (processPart maxBytes p cur).2 := by omega
        rw [this]; exact h2)
    have harith :
        (processPart maxBytes p cur).2 - cur
          + ((processParts maxBytes ps (processPart maxBytes p cur).2).2
            - (processPart maxBytes p cur).2)
        = (processParts maxBytes ps (processPart maxBytes p cur).2).2 - cur := by
      omega
    rw [harith] at h
    simpa [processParts] using h
end

mutual
/-- The counter never decreases across a part. -/
theorem processPart_mono (maxBytes : Int) (p : MessagePart) (cur : Int) :
    cur ≤ (processPart maxBytes p cur).2 := by
  cases p with
  | mk pid mt fn hd body parts =>
    cases body with
    | none =>
      have := processParts_mono maxBytes parts cur
      simpa [processPart] using this
    | some b =>
      by_cases hb : b.data = []
      · have := processParts_mono maxBytes parts cur
        simpa [processPart, hb] using this
      · have h1 := processPartBody_mono mt b maxBytes cur
        have h2 := processParts_mono maxBytes parts (processPartBody mt b maxBytes cur).2
        have : cur ≤ (processParts maxBytes parts (processPartBody mt b maxBytes cur).2).2 :=
          le_trans h1 h2
        simpa [processPart, hb] using this

/-- The counter never decreases across a sibling list. -/
theorem processParts_mono (maxBytes : Int) (ps : MessagePartList) (cur : Int) :
    cur ≤ (processParts maxBytes ps cur).2 := by
  cases ps with
  | nil => simp [processParts]
  | cons p ps =>
    have h1 := processPart_mono maxBytes p cur
    have h2 := processParts_mono maxBytes ps (processPart maxBytes p cur).2
    have : cur ≤ (processParts maxBytes ps (processPart maxBytes p cur).2).2 :=
      le_trans h1 h2
    simpa [processParts] using this
end

mutual
/-- The counter never exceeds the budget across a part. -/
theorem processPart_le (maxBytes : Int) (p : MessagePart) (cur : Int)
    (h : cur ≤ maxBytes) : (processPart maxBytes p cur).2 ≤ maxBytes := by
  cases p with
  | mk pid mt fn hd body parts =>
    cases body with
    | none =>
      have := processParts_le maxBytes parts cur h
      simpa [processPart] using this
    | some b =>
      by_cases hb : b.data = []
      · have := processParts_le maxBytes parts cur h
        simpa [processPart, hb] using this
      · have h1 := processPartBody_le mt b maxBytes cur h
        have h2 := processParts_le maxBytes parts (processPartBody mt b maxBytes cur).2 h1
        simpa [processPart, hb] using h2

/-- The counter never exceeds the budget across a sibling list. -/
theorem processParts_le (maxBytes : Int) (ps : MessagePartList) (cur : Int)
    (h : cur ≤ maxBytes) : (processParts maxBytes ps cur).2 ≤ maxBytes := by
  cases ps with
  | nil => simpa [processParts]
  | cons p ps =>
    have h1 := processPart_le maxBytes p cur h
    have h2 := processParts_le maxBytes ps (processPart maxBytes p cur).2 h1
    simpa [processParts] using h2
end

/-- C7: the truncation pass, as literally stated, fails on the code:
`processPartBody` tests MIME types with `strings.Contains`, not
equality.  This part's MIME type `"xtext/plainx"` is neither
`"text/plain"` nor `"text/html"`, so the claim requires its body data
to be emptied; the pass (budget 100 ≥ 0) instead decodes and keeps the
body `"hi"`. -/
theorem c7_counterexample :
    (processPart 100
        (.mk [] (str "xtext/plainx") [] [] (some ⟨[], 0, str "aGk="⟩) .nil) 0).1.body
      = some ⟨[], 0, str "hi"⟩
    ∧ str "xtext/plainx" ≠ str "text/plain"
    ∧ str "xtext/plainx" ≠ str "text/html"
    ∧ str "hi" ≠ ([] : GoStr)
    ∧ (0 : Int) ≤ 100 :=
  ⟨rfl, by decide, by decide, by decide, by decide⟩

/-- C7 (amended: "text part" means the MIME type *contains*
`"text/plain"` or `"text/html"` as a substring, the test the code
performs): running the pass from counter 0 with a non-negative budget
relates input to output by `PartOutSpec`, whose constructors say that
a part whose MIME type fails the substring test has its body data
emptied with all other fields unchanged, that a text part that decodes
under neither base64url encoding is left unchanged, and that a decoded
text part keeps a prefix of the decoded bytes (plus the marker when
truncated); the total number of decoded body bytes retained, `r`
(markers excluded), is between 0 and `maxBodyBytes`. -/
theorem c7_truncation_invariants (p : MessagePart) (maxBytes : Int) (h : 0 ≤ maxBytes) :
    ∃ r : Int,
      PartOutSpec maxBytes 0 p (processPart maxBytes p 0).1 r
      ∧ (processPart maxBytes p 0).2 = r
      ∧ 0 ≤ r ∧ r ≤ maxBytes := by
  refine ⟨(processPart maxBytes p 0).2, ?_, rfl, ?_, ?_⟩
  · simpa using processPart_spec maxBytes p 0
  · simpa using processPart_mono maxBytes p 0
  · exact processPart_le maxBytes p 0 h

/-- Witness for `c7_truncation_invariants` at a concrete two-part
payload and budget 10. -/
theorem c7_truncation_invariants_witness :
    (0 : Int) ≤ 10
    ∧ ∃ r : Int,
        PartOutSpec 10 0
          (.mk [] (str "multipart/mixed") [] [] none
            (.cons (.mk [] (str "text/plain") [] []
                (some ⟨[], 0, str "VGhpcyBpcyB0aGUgZGVjb2RlZCBib2R5IGNvbnRlbnQu"⟩) .nil) .nil))
          (processPart 10
            (.mk [] (str "multipart/mixed") [] [] none
              (.cons (.mk [] (str "text/plain") [] []
                  (some ⟨[], 0, str "VGhpcyBpcyB0aGUgZGVjb2RlZCBib2R5IGNvbnRlbnQu"⟩) .nil) .nil)) 0).1
          r
        ∧ (processPart 10
            (.mk [] (str "multipart/mixed") [] [] none
              (.cons (.mk [] (str "text/plain") [] []
                  (some ⟨[], 0, str "VGhpcyBpcyB0aGUgZGVjb2RlZCBib2R5IGNvbnRlbnQu"⟩) .nil) .nil)) 0).2 = r
        ∧ 0 ≤ r ∧ r ≤ 10 :=
  ⟨by decide, c7_truncation_invariants _ 10 (by decide)⟩

/-! ## Token persistence (claims C4, C1) -/

/-- Decoding inverts encoding of a token. -/
theorem decodeToken_encodeToken (t : OAuthToken) : decodeToken (encodeToken t) = some t := by
  obtain ⟨a, tt, rt, e, ei⟩ := t
  by_cases h1 : tt = "" <;> by_cases h2 : rt = "" <;> by_cases h3 : ei = 0 <;>
    simp [encodeToken, decodeToken, jStrField, jNumField, List.lookup, h1, h2, h3]

/-- Saving a token and reading the same path yields it back. -/
theorem tokenFromFile_saveToken (fs : FileStore) (path : String) (t : OAuthToken) :
    tokenFromFile (saveToken fs path (some t)) path = some t := by
  unfold tokenFromFile saveToken fsWrite fsRead
  simp [List.lookup, decodeToken_encodeToken]

/-- C4: token persistence round-trips: for every file system, path and
token, `saveToken` followed by `tokenFromFile` on that path succeeds
with a token whose access token, refresh token, token type and expiry
equal the saved ones. -/
theorem c4_token_roundtrip (fs : FileStore) (path : String) (t : OAuthToken) :
    ∃ t2 : OAuthToken,
      tokenFromFile (saveToken fs path (some t)) path = some t2
      ∧ t2.accessToken = t.accessToken
      ∧ t2.refreshToken = t.refreshToken
      ∧ t2.tokenType = t.tokenType
      ∧ t2.expiry = t.expiry :=
  ⟨t, tokenFromFile_saveToken fs path t, rfl, rfl, rfl, rfl⟩

/-- C1: `getClient`'s silent refresh-or-reauthenticate decision.  When
the token file reads and decodes and the refresh succeeds, no web flow
runs, the client is built from the refreshed token (the stored one if
the access token is unchanged), and the refreshed token is saved
exactly when its access token differs from the stored one.  When the
read or the refresh fails, the web flow runs, the client is built from
its token, and that token is saved to the token path.  In every case,
the token the client is built from can be read back from the token
path afterwards. -/
theorem c1_getClient (env : OAuthEnv) (fs : FileStore) (tokenPath : String) :
    (∀ tok newTok, tokenFromFile fs tokenPath = some tok →
        env.refresh tok = some newTok →
        (getClient env fs tokenPath).webFlow = false
        ∧ (getClient env fs tokenPath).client
            = some (if newTok.accessToken ≠ tok.accessToken then newTok else tok)
        ∧ (getClient env fs tokenPath).fs
            = (if newTok.accessToken ≠ tok.accessToken
               then saveToken fs tokenPath (some newTok) else fs))
    ∧ (tokenFromFile fs tokenPath = none →
        (getClient env fs tokenPath).webFlow = true
        ∧ (getClient env fs tokenPath).client = (getTokenFromWeb env.toWebFlowEnv).token
        ∧ (getClient env fs tokenPath).fs
            = saveToken fs tokenPath (getTokenFromWeb env.toWebFlowEnv).token)
    ∧ (∀ tok, tokenFromFile fs tokenPath = some tok → env.refresh tok = none →
        (getClient env fs tokenPath).webFlow = true
        ∧ (getClient env fs tokenPath).client = (getTokenFromWeb env.toWebFlowEnv).token
        ∧ (getClient env fs tokenPath).fs
            = saveToken fs tokenPath (getTokenFromWeb env.toWebFlowEnv).token)
    ∧ (∀ t, (getClient env fs tokenPath).client = some t →
        tokenFromFile (getClient env fs tokenPath).fs tokenPath = some t) := by
  refine ⟨?_, ?_, ?_, ?_⟩
  · intro tok newTok hread href
    by_cases hne : newTok.accessToken ≠ tok.accessToken <;>
      simp [getClient, hread, href, hne]
  · intro hread
    simp [getClient, hread]
  · intro tok hread href
    simp [getClient, hread, href]
  · intro t hclient
    cases hread : tokenFromFile fs tokenPath with
    | none =>
      rw [getClient, hread] at hclient ⊢
      cases hweb : (getTokenFromWeb env.toWebFlowEnv).token with
      | none => simp [hweb] at hclient
      | some w =>
        simp only [hweb] at hclient ⊢
        cases hclient
        simpa using tokenFromFile_saveToken fs tokenPath t
    | some tok =>
      rw [getClient, hread] at hclient ⊢
      cases href : env.refresh tok with
      | none =>
        simp only [href] at hclient ⊢
        cases hweb : (getTokenFromWeb env.toWebFlowEnv).token with
        | none => simp [hweb] at hclient
        | some w =>
          simp only [hweb] at hclient ⊢
          cases hclient
          simpa using tokenFromFile_saveToken fs tokenPath t
      | some newTok =>
        simp only [href] at hclient ⊢
        by_cases hne : newTok.accessToken ≠ tok.accessToken
        · rw [if_pos hne] at hclient ⊢
          cases hclient
          simpa using tokenFromFile_saveToken fs tokenPath t
        · rw [if_neg hne] at hclient ⊢
          cases hclient
          exact hread

/-- Witness for `c1_getClient`: a store holding a token whose refresh
renames the access token; the refreshed token is returned and
persisted without a web flow. -/
theorem c1_getClient_witness :
    tokenFromFile [("token.json", encodeToken ⟨"a", "Bearer", "r", 5, 0⟩)] "token.json"
        = some ⟨"a", "Bearer", "r", 5, 0⟩
    ∧ ({ listenOk := true, callbackCode := "c", stdinCode := none,
         exchange := fun _ => none,
         refresh := fun tok => some { tok with accessToken := "b" } } : OAuthEnv).refresh
          ⟨"a", "Bearer", "r", 5, 0⟩ = some ⟨"b", "Bearer", "r", 5, 0⟩
    ∧ (getClient
        { listenOk := true, callbackCode := "c", stdinCode := none,
          exchange := fun _ => none,
          refresh := fun tok => some { tok with accessToken := "b" } }
        [("token.json", encodeToken ⟨"a", "Bearer", "r", 5, 0⟩)] "token.json").webFlow = false := by
  refine ⟨by decide, by decide, ?_⟩
  exact ((c1_getClient
    { listenOk := true, callbackCode := "c", stdinCode := none,
      exchange := fun _ => none,
      refresh := fun tok => some { tok with accessToken := "b" } }
    [("token.json", encodeToken ⟨"a", "Bearer", "r", 5, 0⟩)] "token.json").1
    ⟨"a", "Bearer", "r", 5, 0⟩ ⟨"b", "Bearer", "r", 5, 0⟩ (by decide) (by decide)).1

/-- C3: the web flow falls back to manual code entry exactly when the
local listener cannot be created; with a listener, an empty callback
code or a failed exchange yields no token and no manual fallback. -/
theorem c3_web_fallback (env : WebFlowEnv) :
    ((getTokenFromWeb env).manualFallback = true ↔ env.listenOk = false)
    ∧ (env.listenOk = true → env.callbackCode = "" →
        getTokenFromWeb env = { token := none, manualFallback := false })
    ∧ (env.listenOk = true → env.callbackCode ≠ "" →
        env.exchange env.callbackCode = none →
        getTokenFromWeb env = { token := none, manualFallback := false })
    ∧ (env.listenOk = false →
        getTokenFromWeb env
          = { token := getTokenFromWebManual env, manualFallback := true }) := by
  refine ⟨?_, ?_, ?_, ?_⟩
  · by_cases h : env.listenOk <;>
      by_cases hc : env.callbackCode = "" <;> simp [getTokenFromWeb, h, hc]
  · intro h hc
    simp [getTokenFromWeb, h, hc]
  · intro h hc hx
    simp [getTokenFromWeb, h, hc, hx]
  · intro h
    simp [getTokenFromWeb, h]

/-- Witness for `c3_web_fallback`: with a listener and an empty
callback code, the flow returns no token and no fallback. -/
theorem c3_web_fallback_witness :
    ({ listenOk := true, callbackCode := "", stdinCode := none,
       exchange := fun _ => none } : WebFlowEnv).listenOk = true
    ∧ getTokenFromWeb
        { listenOk := true, callbackCode := "", stdinCode := none,
          exchange := fun _ => none }
        = { token := none, manualFallback := false } :=
  ⟨rfl, (c3_web_fallback
    { listenOk := true, callbackCode := "", stdinCode := none,
      exchange := fun _ => none }).2.1 rfl rfl⟩

/-! ## The Obsidian client (claims C6, C9) -/

/-- Looking up a key in a list ending with that key, when no earlier
entry has it. -/
theorem lookup_append_single (k v : String) (l : List (String × String))
    (h : ∀ p ∈ l, p.1 ≠ k) : List.lookup k (l ++ [(k, v)]) = some v := by
  induction l with
  | nil => simp [List.lookup]
  | cons hd tl ih =>
    have h1 : (k == hd.1) = false :=
      beq_eq_false_iff_ne.mpr fun he => h hd (by simp) he.symm
    simp only [List.cons_append, List.lookup, h1]
    exact ih fun p hp => h p (by simp [hp])

/-- Go `Header.Set` followed by a read of the same key. -/
theorem getHeader_setHeader (hs : List (String × String)) (k v : String) :
    getHeader (setHeader hs k v) k = some v := by
  unfold getHeader setHeader
  exact lookup_append_single k v _ fun p hp => by
    have := List.of_mem_filter hp
    simpa using this

/-- Every `do` call issues exactly one wire request, and it carries
the bearer header. -/
theorem clientDo_requests (c : ObsClient) (tr : ObsTransport) (target : DoTarget)
    (req : HttpRequest) :
    (clientDo c tr target req).2.map (fun r => getHeader r.headers "Authorization")
      = [some ("Bearer " ++ c.token)] := by
  have hh : getHeader (withAuth c req).headers "Authorization"
      = some ("Bearer " ++ c.token) := getHeader_setHeader _ _ _
  unfold clientDo
  cases h : tr.roundTrip (withAuth c req) with
  | error e => simp [h, hh]
  | ok resp =>
    by_cases hs : 400 ≤ resp.status
    · cases he : tr.decodeErrResp resp.body <;> simp [h, hs, he, hh]
    · cases target with
      | noTarget => simp [h, hs, hh]
      | strTarget => simp [h, hs, hh]
      | jsonTarget => cases hj : tr.decodeJson resp.body <;> simp [h, hs, hj, hh]

/-- C6 (amended): `do`'s error classification.  A transport failure,
an HTTP status of 400 or more, and a failed decode of a JSON success
body are exactly the error outcomes; a 400+ body that parses as an
`ErrorResponse` is returned as that error and otherwise as the
`ErrAPI` error holding the status code and the portion of the body the
failed `ErrorResponse` decode left unread (the decoder consumed what
it read, so this is empty for a typical small body, not the raw body);
below 400 with a string target the raw body comes back unmodified. -/
theorem c6_do_errors (c : ObsClient) (tr : ObsTransport) (target : DoTarget)
    (req : HttpRequest) :
    ((clientDo c tr target req).1.isError = true ↔
      ((∃ e, tr.roundTrip (withAuth c req) = .error e)
        ∨ (∃ resp, tr.roundTrip (withAuth c req) = .ok resp ∧ 400 ≤ resp.status)
        ∨ (∃ resp, tr.roundTrip (withAuth c req) = .ok resp ∧ resp.status < 400
            ∧ target = .jsonTarget ∧ tr.decodeJson resp.body = none)))
    ∧ (∀ e, tr.roundTrip (withAuth c req) = .error e →
        (clientDo c tr target req).1 = .transportErr e)
    ∧ (∀ resp er, tr.roundTrip (withAuth c req) = .ok resp → 400 ≤ resp.status →
        tr.decodeErrResp resp.body = some er →
        (clientDo c tr target req).1 = .errResp er)
    ∧ (∀ resp, tr.roundTrip (withAuth c req) = .ok resp → 400 ≤ resp.status →
        tr.decodeErrResp resp.body = none →
        (clientDo c tr target req).1
          = .apiErr resp.status (tr.errRemainder resp.body))
    ∧ (∀ resp, tr.roundTrip (withAuth c req) = .ok resp → resp.status < 400 →
        target = .strTarget →
        (clientDo c tr target req).1 = .okString resp.body) := by
  refine ⟨?_, ?_, ?_, ?_, ?_⟩
  · unfold clientDo
    cases h : tr.roundTrip (withAuth c req) with
    | error e => simp [h, DoResult.isError]
    | ok resp =>
      by_cases hs : 400 ≤ resp.status
      · cases he : tr.decodeErrResp resp.body <;>
          simp [h, hs, he, DoResult.isError]
      · cases target with
        | noTarget => simp [h, hs, DoResult.isError]
        | strTarget => simp [h, hs, DoResult.isError]
        | jsonTarget =>
          cases hj : tr.decodeJson resp.body <;>
            simp [h, hs, hj, DoResult.isError]
          omega
  · intro e h
    simp [clientDo, h]
  · intro resp er h hs he
    simp [clientDo, h, he, if_pos hs]
  · intro resp h hs he
    simp [clientDo, h, he, if_pos hs]
  · intro resp h hs htgt
    subst htgt
    simp [clientDo, h, if_neg (Nat.not_le.mpr hs)]

/-- C6: the claim as stated is false on the code: for a 500 response
with the unparsable four-byte body `"boom"`, the decoder's first read
consumes the whole body, `io.ReadAll` returns the empty remainder, and
the returned `ErrAPI` error carries `""`, not the raw body `"boom"`
the claim requires. -/
theorem c6_counterexample :
    (clientDo ⟨"https://h/", "k"⟩
        { roundTrip := fun _ => .ok ⟨500, "boom"⟩,
          decodeErrResp := fun _ => none,
          errRemainder := fun _ => "",
          decodeJson := fun _ => none }
        .strTarget (newRequest "GET" "https://h/active/" "")).1
      = .apiErr 500 ""
    ∧ ("boom" : String) ≠ "" :=
  ⟨rfl, by decide⟩

/-- Witness for `c6_do_errors`: a transport returning status 500 with
an unparsable body yields the `ErrAPI` error holding the unread
remainder. -/
theorem c6_do_errors_witness :
    ({ roundTrip := fun _ => .ok ⟨500, "boom"⟩,
       decodeErrResp := fun _ => none,
       errRemainder := fun _ => "",
       decodeJson := fun _ => none } : ObsTransport).roundTrip
        (withAuth ⟨"https://h/", "k"⟩ (newRequest "GET" "https://h/active/" ""))
      = .ok ⟨500, "boom"⟩
    ∧ 400 ≤ 500
    ∧ (clientDo ⟨"https://h/", "k"⟩
        { roundTrip := fun _ => .ok ⟨500, "boom"⟩,
          decodeErrResp := fun _ => none,
          errRemainder := fun _ => "",
          decodeJson := fun _ => none }
        .strTarget (newRequest "GET" "https://h/active/" "")).1
      = .apiErr 500 "" :=
  ⟨rfl, by decide,
    (c6_do_errors ⟨"https://h/", "k"⟩
      { roundTrip := fun _ => .ok ⟨500, "boom"⟩,
        decodeErrResp := fun _ => none,
        errRemainder := fun _ => "",
        decodeJson := fun _ => none }
      .strTarget (newRequest "GET" "https://h/active/" "")).2.2.2.1
      ⟨500, "boom"⟩ rfl (by decide) rfl⟩

/-- C9: every HTTP request issued through the Obsidian client — by
every Vault, Search, Periodic, ActiveFile, Commands and Open
operation, for every argument value — carries the `Authorization`
header `"Bearer "` followed by the configured API key (and each
operation issues exactly one request). -/
theorem c9_bearer_header (c : ObsClient) (tr : ObsTransport) :
    (∀ content op targetType target path period dql cid qj : String,
      ∀ year month day contextLength : Int, ∀ newLeaf : Bool,
      (activeFileGet c tr).2.map (fun r => getHeader r.headers "Authorization")
          = [some ("Bearer " ++ c.token)]
      ∧ (activeFileGetNote c tr).2.map (fun r => getHeader r.headers "Authorization")
          = [some ("Bearer " ++ c.token)]
      ∧ (activeFileAppend c tr content).2.map (fun r => getHeader r.headers "Authorization")
          = [some ("Bearer " ++ c.token)]
      ∧ (activeFileDelete c tr).2.map (fun r => getHeader r.headers "Authorization")
          = [some ("Bearer " ++ c.token)]
      ∧ (activeFilePatch c tr op targetType target content).2.map
            (fun r => getHeader r.headers "Authorization")
          = [some ("Bearer " ++ c.token)]
      ∧ (vaultList c tr path).2.map (fun r => getHeader r.headers "Authorization")
          = [some ("Bearer " ++ c.token)]
      ∧ (vaultGet c tr path).2.map (fun r => getHeader r.headers "Authorization")
          = [some ("Bearer " ++ c.token)]
      ∧ (vaultGetNote c tr path).2.map (fun r => getHeader r.headers "Authorization")
          = [some ("Bearer " ++ c.token)]
      ∧ (vaultCreate c tr path content).2.map (fun r => getHeader r.headers "Authorization")
          = [some ("Bearer " ++ c.token)]
      ∧ (vaultDelete c tr path).2.map (fun r => getHeader r.headers "Authorization")
          = [some ("Bearer " ++ c.token)]
      ∧ (periodicGetCurrent c tr period).2.map (fun r => getHeader r.headers "Authorization")
          = [some ("Bearer " ++ c.token)]
      ∧ (periodicGetCurrentNote c tr period).2.map
            (fun r => getHeader r.headers "Authorization")
          = [some ("Bearer " ++ c.token)]
      ∧ (periodicAppendToCurrent c tr period content).2.map
            (fun r => getHeader r.headers "Authorization")
          = [some ("Bearer " ++ c.token)]
      ∧ (periodicPatchCurrent c tr period op targetType target content).2.map
            (fun r => getHeader r.headers "Authorization")
          = [some ("Bearer " ++ c.token)]
      ∧ (periodicDeleteCurrent c tr period).2.map
            (fun r => getHeader r.headers "Authorization")
          = [some ("Bearer " ++ c.token)]
      ∧ (periodicGet c tr period year month day).2.map
            (fun r => getHeader r.headers "Authorization")
          = [some ("Bearer " ++ c.token)]
      ∧ (searchSimple c tr qj contextLength).2.map
            (fun r => getHeader r.headers "Authorization")
          = [some ("Bearer " ++ c.token)]
      ∧ (searchJsonLogic c tr qj).2.map (fun r => getHeader r.headers "Authorization")
          = [some ("Bearer " ++ c.token)]
      ∧ (searchDataview c tr dql).2.map (fun r => getHeader r.headers "Authorization")
          = [some ("Bearer " ++ c.token)]
      ∧ (commandsList c tr).2.map (fun r => getHeader r.headers "Authorization")
          = [some ("Bearer " ++ c.token)]
      ∧ (commandsExecute c tr cid).2.map (fun r => getHeader r.headers "Authorization")
          = [some ("Bearer " ++ c.token)]
      ∧ (openFile c tr path newLeaf).2.map (fun r => getHeader r.headers "Authorization")
          = [some ("Bearer " ++ c.token)]) := by
  intro content op targetType target path period dql cid qj year month day contextLength newLeaf
  exact ⟨clientDo_requests c tr _ _, clientDo_requests c tr _ _, clientDo_requests c tr _ _,
    clientDo_requests c tr _ _, clientDo_requests c tr _ _, clientDo_requests c tr _ _,
    clientDo_requests c tr _ _, clientDo_requests c tr _ _, clientDo_requests c tr _ _,
    clientDo_requests c tr _ _, clientDo_requests c tr _ _, clientDo_requests c tr _ _,
    clientDo_requests c tr _ _, clientDo_requests c tr _ _, clientDo_requests c tr _ _,
    clientDo_requests c tr _ _, clientDo_requests c tr _ _, clientDo_requests c tr _ _,
    clientDo_requests c tr _ _, clientDo_requests c tr _ _, clientDo_requests c tr _ _,
    clientDo_requests c tr _ _⟩

/-! ## One client call per invocation (claim C5) -/

/-- Go `gmail_search` call count. -/
theorem gmailSearch_calls (env : GmailEnv) (req : ReqArgs) :
    (GmailSearchHandler env req).2.length ≤ 1
    ∧ (gmailSearchValid req = true → (GmailSearchHandler env req).2.length = 1) := by
  cases req with
  | notMap => simp [GmailSearchHandler, gmailSearchValid]
  | map args =>
    cases hq : argStr args "query" with
    | none => simp [GmailSearchHandler, gmailSearchValid, hq]
    | some q =>
      cases hm : env.searchMessages q ((argNum args "maxResults").getD defaultMaxResults) <;>
        simp [GmailSearchHandler, gmailSearchValid, hq, hm]

/-- Go `gmail_read` call count. -/
theorem gmailRead_calls (env : GmailEnv) (req : ReqArgs) :
    (GmailReadHandler env req).2.length ≤ 1
    ∧ (gmailReadValid req = true → (GmailReadHandler env req).2.length = 1) := by
  cases req with
  | notMap => simp [GmailReadHandler, gmailReadValid]
  | map args =>
    cases hid : argStr args "messageId" with
    | none => simp [GmailReadHandler, gmailReadValid, hid]
    | some id =>
      cases hm : env.getMessage id <;>
        simp [GmailReadHandler, gmailReadValid, hid, hm]

/-- Go `calendar_list` always makes exactly one call. -/
theorem calList_calls (env : CalEnv) (config : CalConfig) (req : ReqArgs) :
    (CalendarListHandler env config req).2.length = 1 := by
  cases h : env.listCalendars with
  | error e => simp [CalendarListHandler, h]
  | ok lst =>
    simp only [CalendarListHandler, h]
    split <;> simp

/-- Go `calendar_list_events` call count. -/
theorem calListEvents_calls (env : CalEnv) (config : CalConfig) (req : ReqArgs) :
    (CalendarListEventsHandler env config req).2.length ≤ 1
    ∧ (calListEventsValid config req = true →
        (CalendarListEventsHandler env config req).2.length = 1) := by
  cases req with
  | notMap => simp [CalendarListEventsHandler, calListEventsValid]
  | map args =>
    cases hacc : checkCalendarAccess (calendarArg args) config with
    | some msg => simp [CalendarListEventsHandler, calListEventsValid, hacc]
    | none =>
      cases he : env.listEvents (calendarArg args) ((argStr args "timeMin").getD "")
          ((argStr args "timeMax").getD "") ((argNum args "maxResults").getD 0) <;>
        simp [CalendarListEventsHandler, calListEventsValid, hacc, he]

/-- Go `calendar_create_event` call count. -/
theorem calCreate_calls (env : CalEnv) (config : CalConfig) (req : ReqArgs) :
    (CalendarCreateEventHandler env config req).2.length ≤ 1
    ∧ (calCreateValid env config req = true →
        (CalendarCreateEventHandler env config req).2.length = 1) := by
  cases req with
  | notMap => simp [CalendarCreateEventHandler, calCreateValid]
  | map args =>
    cases hacc : checkCalendarAccess (calendarArg args) config with
    | some msg => simp [CalendarCreateEventHandler, calCreateValid, hacc]
    | none =>
      cases hsum : argStr args "summary" with
      | none => simp [CalendarCreateEventHandler, calCreateValid, hacc, hsum]
      | some summary =>
        cases hst : argStr args "startTime" with
        | none => simp [CalendarCreateEventHandler, calCreateValid, hacc, hsum, hst]
        | some s =>
          cases het : argStr args "endTime" with
          | none => simp [CalendarCreateEventHandler, calCreateValid, hacc, hsum, hst, het]
          | some e =>
            cases hrec : parseRecurrence env (lookupArg args "recurrence") with
            | error er =>
              simp [CalendarCreateEventHandler, calCreateValid, hacc, hsum, hst, het,
                hrec, exceptOk]
            | ok rec =>
              cases hps : parseEventDateTime env s with
              | error er =>
                simp [CalendarCreateEventHandler, calCreateValid, hacc, hsum, hst, het,
                  hrec, hps, exceptOk]
              | ok start =>
                cases hpe : parseEventDateTime env e with
                | error er =>
                  simp [CalendarCreateEventHandler, calCreateValid, hacc, hsum, hst, het,
                    hrec, hps, hpe, exceptOk]
                | ok fin =>
                  simp only [CalendarCreateEventHandler, hacc, hsum, hst, het, hrec,
                    hps, hpe]
                  constructor
                  · split <;> simp
                  · intro _
                    split <;> simp

/-- Go `calendar_patch_event` call count. -/
theorem calPatch_calls (env : CalEnv) (config : CalConfig) (req : ReqArgs) :
    (CalendarPatchEventHandler env config req).2.length ≤ 1
    ∧ (calPatchValid env config req = true →
        (CalendarPatchEventHandler env config req).2.length = 1) := by
  cases req with
  | notMap => simp [CalendarPatchEventHandler, calPatchValid]
  | map args =>
    cases hacc : checkCalendarAccess (calendarArg args) config with
    | some msg => simp [CalendarPatchEventHandler, calPatchValid, hacc]
    | none =>
      cases hid : argStr args "eventId" with
      | none => simp [CalendarPatchEventHandler, calPatchValid, hacc, hid]
      | some eid =>
        cases hst : argStr args "startTime" with
        | none =>
          cases het : argStr args "endTime" with
          | none =>
            cases hrec : parseRecurrence env (lookupArg args "recurrence") with
            | error er => simp [CalendarPatchEventHandler, calPatchValid, hacc, hid, hst, het, hrec, exceptOk]
            | ok rec =>
              cases rec <;>
                simp [CalendarPatchEventHandler, calPatchValid, hacc, hid, hst, het, hrec, exceptOk] <;>
                split <;> simp
          | some ve =>
            by_cases hve : ve = ""
            · cases hrec : parseRecurrence env (lookupArg args "recurrence") with
              | error er => simp [CalendarPatchEventHandler, calPatchValid, hacc, hid, hst, het, hve, hrec, exceptOk]
              | ok rec =>
                cases rec <;>
                  simp [CalendarPatchEventHandler, calPatchValid, hacc, hid, hst, het, hve, hrec, exceptOk] <;>
                  split <;> simp
            · cases hpe : parseEventDateTime env ve with
              | error er =>
                simp [CalendarPatchEventHandler, calPatchValid, hacc, hid, hst, het,
                  hve, hpe, exceptOk]
              | ok fin =>
                cases hrec : parseRecurrence env (lookupArg args "recurrence") with
                | error er => simp [CalendarPatchEventHandler, calPatchValid, hacc, hid, hst, het, hve, hpe, hrec, exceptOk]
                | ok rec =>
                  cases rec <;>
                    simp [CalendarPatchEventHandler, calPatchValid, hacc, hid, hst, het, hve, hpe, hrec, exceptOk] <;>
                    split <;> simp
        | some vs =>
          by_cases hvs : vs = ""
          · cases het : argStr args "endTime" with
            | none =>
              cases hrec : parseRecurrence env (lookupArg args "recurrence") with
              | error er => simp [CalendarPatchEventHandler, calPatchValid, hacc, hid, hst, hvs, het, hrec, exceptOk]
              | ok rec =>
                cases rec <;>
                  simp [CalendarPatchEventHandler, calPatchValid, hacc, hid, hst, hvs, het, hrec, exceptOk] <;>
                  split <;> simp
            | some ve =>
              by_cases hve : ve = ""
              · cases hrec : parseRecurrence env (lookupArg args "recurrence") with
                | error er => simp [CalendarPatchEventHandler, calPatchValid, hacc, hid, hst, hvs, het, hve, hrec, exceptOk]
                | ok rec =>
                  cases rec <;>
                    simp [CalendarPatchEventHandler, calPatchValid, hacc, hid, hst, hvs, het, hve, hrec, exceptOk] <;>
                    split <;> simp
              · cases hpe : parseEventDateTime env ve with
                | error er =>
                  simp [CalendarPatchEventHandler, calPatchValid, hacc, hid, hst, hvs,
                    het, hve, hpe, exceptOk]
                | ok fin =>
                  cases hrec : parseRecurrence env (lookupArg args "recurrence") with
                  | error er => simp [CalendarPatchEventHandler, calPatchValid, hacc, hid, hst, hvs, het, hve, hpe, hrec, exceptOk]
                  | ok rec =>
                    cases rec <;>
                      simp [CalendarPatchEventHandler, calPatchValid, hacc, hid, hst, hvs, het, hve, hpe, hrec, exceptOk] <;>
                      split <;> simp
          · cases hps : parseEventDateTime env vs with
            | error er =>
              simp [CalendarPatchEventHandler, calPatchValid, hacc, hid, hst, hvs, hps,
                exceptOk]
            | ok start =>
              cases het : argStr args "endTime" with
              | none =>
                cases hrec : parseRecurrence env (lookupArg args "recurrence") with
                | error er => simp [CalendarPatchEventHandler, calPatchValid, hacc, hid, hst, hvs, hps, het, hrec, exceptOk]
                | ok rec =>
                  cases rec <;>
                    simp [CalendarPatchEventHandler, calPatchValid, hacc, hid, hst, hvs, hps, het, hrec, exceptOk] <;>
                    split <;> simp
              | some ve =>
                by_cases hve : ve = ""
                · cases hrec : parseRecurrence env (lookupArg args "recurrence") with
                  | error er => simp [CalendarPatchEventHandler, calPatchValid, hacc, hid, hst, hvs, hps, het, hve, hrec, exceptOk]
                  | ok rec =>
                    cases rec <;>
                      simp [CalendarPatchEventHandler, calPatchValid, hacc, hid, hst, hvs, hps, het, hve, hrec, exceptOk] <;>
                      split <;> simp
                · cases hpe : parseEventDateTime env ve with
                  | error er =>
                    simp [CalendarPatchEventHandler, calPatchValid, hacc, hid, hst, hvs,
                      hps, het, hve, hpe, exceptOk]
                  | ok fin =>
                    cases hrec : parseRecurrence env (lookupArg args "recurrence") with
                    | error er => simp [CalendarPatchEventHandler, calPatchValid, hacc, hid, hst, hvs, hps, het, hve, hpe, hrec, exceptOk]
                    | ok rec =>
                      cases rec <;>
                        simp [CalendarPatchEventHandler, calPatchValid, hacc, hid, hst, hvs, hps, het, hve, hpe, hrec, exceptOk] <;>
                        split <;> simp

/-- Go `calendar_delete_event` call count. -/
theorem calDelete_calls (env : CalEnv) (config : CalConfig) (req : ReqArgs) :
    (CalendarDeleteEventHandler env config req).2.length ≤ 1
    ∧ (calDeleteValid config req = true →
        (CalendarDeleteEventHandler env config req).2.length = 1) := by
  cases req with
  | notMap => simp [CalendarDeleteEventHandler, calDeleteValid]
  | map args =>
    cases hacc : checkCalendarAccess (calendarArg args) config with
    | some msg => simp [CalendarDeleteEventHandler, calDeleteValid, hacc]
    | none =>
      cases hid : argStr args "eventId" with
      | none => simp [CalendarDeleteEventHandler, calDeleteValid, hacc, hid]
      | some eid =>
        cases hd : env.deleteEvent (calendarArg args) eid <;>
          simp [CalendarDeleteEventHandler, calDeleteValid, hacc, hid, hd]

/-- Go `calendar_move_event` call count. -/
theorem calMove_calls (env : CalEnv) (config : CalConfig) (req : ReqArgs) :
    (CalendarMoveEventHandler env config req).2.length ≤ 1
    ∧ (calMoveValid config req = true →
        (CalendarMoveEventHandler env config req).2.length = 1) := by
  cases req with
  | notMap => simp [CalendarMoveEventHandler, calMoveValid]
  | map args =>
    cases hacc : checkCalendarAccess (calendarArg args) config with
    | some msg => simp [CalendarMoveEventHandler, calMoveValid, hacc]
    | none =>
      cases hid : argStr args "eventId" with
      | none => simp [CalendarMoveEventHandler, calMoveValid, hacc, hid]
      | some eid =>
        cases hdst : argStr args "destination" with
        | none => simp [CalendarMoveEventHandler, calMoveValid, hacc, hid, hdst]
        | some dst =>
          cases hacc2 : checkCalendarAccess dst config with
          | some msg =>
            simp [CalendarMoveEventHandler, calMoveValid, hacc, hid, hdst, hacc2]
          | none =>
            cases hm : env.moveEvent (calendarArg args) eid dst <;>
              simp [CalendarMoveEventHandler, calMoveValid, hacc, hid, hdst, hacc2, hm]

/-- Go `do` puts exactly one request on the wire per invocation. -/
theorem clientDo_one (c : ObsClient) (tr : ObsTransport) (target : DoTarget)
    (req : HttpRequest) : (clientDo c tr target req).2.length = 1 := by
  have := congrArg List.length (clientDo_requests c tr target req)
  simpa using this

/-- Call counts of the ten registered Obsidian tool handlers: exactly
one service call each, except that `append_active_file` and
`search_json_logic` make none when their argument validation fails. -/
theorem obsHandlers_calls (c : ObsClient) (tr : ObsTransport) (env : ObsMcpEnv)
    (req : ReqArgs) :
    (getActiveFileHandler c tr env req).2.length = 1
    ∧ (appendActiveFileHandler c tr env req).2.length ≤ 1
    ∧ (appendActiveFileValid req = true →
        (appendActiveFileHandler c tr env req).2.length = 1)
    ∧ (patchActiveFileHandler c tr env req).2.length = 1
    ∧ (searchSimpleHandler c tr env req).2.length = 1
    ∧ (searchJSONLogicHandler c tr env req).2.length ≤ 1
    ∧ (searchJSONLogicValid env req = true →
        (searchJSONLogicHandler c tr env req).2.length = 1)
    ∧ (getDailyNoteHandler c tr env req).2.length = 1
    ∧ (getFileHandler c tr env req).2.length = 1
    ∧ (listFilesHandler c tr env req).2.length = 1
    ∧ (createOrUpdateFileHandler c tr env req).2.length = 1
    ∧ (openFileHandler c tr env req).2.length = 1 := by
  refine ⟨?_, ?_, ?_, ?_, ?_, ?_, ?_, ?_, ?_, ?_, ?_, ?_⟩
  · simp [getActiveFileHandler, doJsonResult, activeFileGetNote, clientDo_one]
  · cases hc : argStr (getArgs req) "content" with
    | none => simp [appendActiveFileHandler, hc]
    | some content =>
      simp [appendActiveFileHandler, hc, doUnitResult, activeFileAppend, clientDo_one]
  · intro hv
    cases hc : argStr (getArgs req) "content" with
    | none => simp [appendActiveFileValid, hc] at hv
    | some content =>
      simp [appendActiveFileHandler, hc, doUnitResult, activeFileAppend, clientDo_one]
  · simp [patchActiveFileHandler, doUnitResult, activeFilePatch, clientDo_one]
  · simp [searchSimpleHandler, doJsonResult, searchSimple, clientDo_one]
  · cases hq : env.jsonUnmarshal ((argStr (getArgs req) "query").getD "") with
    | error e => simp [searchJSONLogicHandler, hq]
    | ok q =>
      simp [searchJSONLogicHandler, hq, doJsonResult, searchJsonLogic, clientDo_one]
  · intro hv
    cases hq : env.jsonUnmarshal ((argStr (getArgs req) "query").getD "") with
    | error e => simp [searchJSONLogicValid, hq, exceptOk] at hv
    | ok q =>
      simp [searchJSONLogicHandler, hq, doJsonResult, searchJsonLogic, clientDo_one]
  · simp [getDailyNoteHandler, doJsonResult, periodicGetCurrentNote, clientDo_one]
  · simp [getFileHandler, doJsonResult, vaultGetNote, clientDo_one]
  · simp [listFilesHandler, doJsonResult, vaultList, clientDo_one]
  · simp [createOrUpdateFileHandler, doUnitResult, vaultCreate, clientDo_one]
  · simp [openFileHandler, doUnitResult, openFile, clientDo_one]

/-- C5: each tool handler makes at most one client call per
invocation — the Gmail pair, the six Calendar handlers, and the ten
registered Obsidian handlers — makes exactly one when its arguments
pass validation (whatever the call's outcome — there is no retry), and
`do` puts exactly one request on the wire per invocation. -/
theorem c5_one_call_per_invocation :
    (∀ (env : GmailEnv) (req : ReqArgs),
      (GmailSearchHandler env req).2.length ≤ 1
      ∧ (gmailSearchValid req = true → (GmailSearchHandler env req).2.length = 1)
      ∧ (GmailReadHandler env req).2.length ≤ 1
      ∧ (gmailReadValid req = true → (GmailReadHandler env req).2.length = 1))
    ∧ (∀ (env : CalEnv) (config : CalConfig) (req : ReqArgs),
      (CalendarListHandler env config req).2.length = 1
      ∧ (CalendarListEventsHandler env config req).2.length ≤ 1
      ∧ (calListEventsValid config req = true →
          (CalendarListEventsHandler env config req).2.length = 1)
      ∧ (CalendarCreateEventHandler env config req).2.length ≤ 1
      ∧ (calCreateValid env config req = true →
          (CalendarCreateEventHandler env config req).2.length = 1)
      ∧ (CalendarPatchEventHandler env config req).2.length ≤ 1
      ∧ (calPatchValid env config req = true →
          (CalendarPatchEventHandler env config req).2.length = 1)
      ∧ (CalendarDeleteEventHandler env config req).2.length ≤ 1
      ∧ (calDeleteValid config req = true →
          (CalendarDeleteEventHandler env config req).2.length = 1)
      ∧ (CalendarMoveEventHandler env config req).2.length ≤ 1
      ∧ (calMoveValid config req = true →
          (CalendarMoveEventHandler env config req).2.length = 1))
    ∧ (∀ (c : ObsClient) (tr : ObsTransport) (env : ObsMcpEnv) (req : ReqArgs),
      (getActiveFileHandler c tr env req).2.length = 1
      ∧ (appendActiveFileHandler c tr env req).2.length ≤ 1
      ∧ (appendActiveFileValid req = true →
          (appendActiveFileHandler c tr env req).2.length = 1)
      ∧ (patchActiveFileHandler c tr env req).2.length = 1
      ∧ (searchSimpleHandler c tr env req).2.length = 1
      ∧ (searchJSONLogicHandler c tr env req).2.length ≤ 1
      ∧ (searchJSONLogicValid env req = true →
          (searchJSONLogicHandler c tr env req).2.length = 1)
      ∧ (getDailyNoteHandler c tr env req).2.length = 1
      ∧ (getFileHandler c tr env req).2.length = 1
      ∧ (listFilesHandler c tr env req).2.length = 1
      ∧ (createOrUpdateFileHandler c tr env req).2.length = 1
      ∧ (openFileHandler c tr env req).2.length = 1)
    ∧ (∀ (c : ObsClient) (tr : ObsTransport) (target : DoTarget) (req : HttpRequest),
      (clientDo c tr target req).2.length = 1) := by
  refine ⟨fun env req => ?_, fun env config req => ?_,
    fun c tr env req => obsHandlers_calls c tr env req, fun c tr target req => ?_⟩
  · exact ⟨(gmailSearch_calls env req).1, (gmailSearch_calls env req).2,
      (gmailRead_calls env req).1, (gmailRead_calls env req).2⟩
  · exact ⟨calList_calls env config req,
      (calListEvents_calls env config req).1, (calListEvents_calls env config req).2,
      (calCreate_calls env config req).1, (calCreate_calls env config req).2,
      (calPatch_calls env config req).1, (calPatch_calls env config req).2,
      (calDelete_calls env config req).1, (calDelete_calls env config req).2,
      (calMove_calls env config req).1, (calMove_calls env config req).2⟩
  · have h := clientDo_requests c tr target req
    have := congrArg List.length h
    simpa using this

/-- Witness for `c5_one_call_per_invocation`: a valid `gmail_search`
request makes exactly one call whatever the outcome. -/
theorem c5_one_call_per_invocation_witness :
    gmailSearchValid (.map [("query", .s "from:a@b")]) = true
    ∧ (GmailSearchHandler
        { searchMessages := fun _ _ => .error "boom", getMessage := fun _ => .error "x" }
        (.map [("query", .s "from:a@b")])).2.length = 1 :=
  ⟨rfl, (c5_one_call_per_invocation.1
    { searchMessages := fun _ _ => .error "boom", getMessage := fun _ => .error "x" }
    (.map [("query", .s "from:a@b")])).2.1 rfl⟩

/-! ## The calendar allowlist (claim C8) -/

/-- Go `checkCalendarAccess` passes exactly when the calendar is
allowed. -/
theorem checkCalendarAccess_none_iff (id : String) (config : CalConfig) :
    checkCalendarAccess id config = none
      ↔ isCalendarAllowed id (calConfigCalendars config) = true := by
  unfold checkCalendarAccess
  by_cases h : isCalendarAllowed id (calConfigCalendars config) <;> simp [h]

/-- C8: an empty allowlist allows every calendar; with a non-empty
allowlist, a calendar-naming invocation whose (defaulted) calendar is
not allowed gets the access-denied tool error with no client call, for
each of the five calendar-taking handlers; `calendar_move_event`
additionally denies a disallowed destination before calling, and any
`MoveEvent` call it does make has both calendars allowed. -/
theorem c8_allowlist (env : CalEnv) (config : CalConfig) (args : List (String × ArgVal)) :
    (∀ id : String, isCalendarAllowed id [] = true)
    ∧ (calConfigCalendars config ≠ [] →
        isCalendarAllowed (calendarArg args) (calConfigCalendars config) = false →
        CalendarListEventsHandler env config (.map args)
            = (.errorR (errAccessDenied ++ ": " ++ calendarArg args), [])
        ∧ CalendarCreateEventHandler env config (.map args)
            = (.errorR (errAccessDenied ++ ": " ++ calendarArg args), [])
        ∧ CalendarPatchEventHandler env config (.map args)
            = (.errorR (errAccessDenied ++ ": " ++ calendarArg args), [])
        ∧ CalendarDeleteEventHandler env config (.map args)
            = (.errorR (errAccessDenied ++ ": " ++ calendarArg args), [])
        ∧ CalendarMoveEventHandler env config (.map args)
            = (.errorR (errAccessDenied ++ ": " ++ calendarArg args), []))
    ∧ (∀ eid dst, argStr args "eventId" = some eid →
        argStr args "destination" = some dst →
        checkCalendarAccess (calendarArg args) config = none →
        isCalendarAllowed dst (calConfigCalendars config) = false →
        CalendarMoveEventHandler env config (.map args)
          = (.errorR ("destination calendar: " ++ (errAccessDenied ++ ": " ++ dst)), []))
    ∧ ((CalendarMoveEventHandler env config (.map args)).2.all
        (fun call => match call with
          | .moveEvent src _ dst =>
            isCalendarAllowed src (calConfigCalendars config)
              && isCalendarAllowed dst (calConfigCalendars config)
          | _ => false) = true) := by
  refine ⟨?_, ?_, ?_, ?_⟩
  · intro id
    simp [isCalendarAllowed]
  · intro _ hfalse
    have hacc : checkCalendarAccess (calendarArg args) config
        = some (errAccessDenied ++ ": " ++ calendarArg args) := by
      simp [checkCalendarAccess, hfalse]
    exact ⟨by simp [CalendarListEventsHandler, hacc],
      by simp [CalendarCreateEventHandler, hacc],
      by simp [CalendarPatchEventHandler, hacc],
      by simp [CalendarDeleteEventHandler, hacc],
      by simp [CalendarMoveEventHandler, hacc]⟩
  · intro eid dst hid hdst hacc hfalse
    have hacc2 : checkCalendarAccess dst config
        = some (errAccessDenied ++ ": " ++ dst) := by
      simp [checkCalendarAccess, hfalse]
    simp [CalendarMoveEventHandler, hacc, hid, hdst, hacc2]
  · cases hacc : checkCalendarAccess (calendarArg args) config with
    | some msg => simp [CalendarMoveEventHandler, hacc]
    | none =>
      have hsrc : isCalendarAllowed (calendarArg args) (calConfigCalendars config) = true :=
        (checkCalendarAccess_none_iff _ _).mp hacc
      cases hid : argStr args "eventId" with
      | none => simp [CalendarMoveEventHandler, hacc, hid]
      | some eid =>
        cases hdst : argStr args "destination" with
        | none => simp [CalendarMoveEventHandler, hacc, hid, hdst]
        | some dst =>
          cases hacc2 : checkCalendarAccess dst config with
          | some msg => simp [CalendarMoveEventHandler, hacc, hid, hdst, hacc2]
          | none =>
            have hdst2 : isCalendarAllowed dst (calConfigCalendars config) = true :=
              (checkCalendarAccess_none_iff _ _).mp hacc2
            cases hm : env.moveEvent (calendarArg args) eid dst <;>
              simp [CalendarMoveEventHandler, hacc, hid, hdst, hacc2, hm, hsrc, hdst2]

/-- Witness for `c8_allowlist`: allowlist `["work"]` denies calendar
`"personal"` on `calendar_list_events` without a client call. -/
theorem c8_allowlist_witness :
    calConfigCalendars [("calendars", ["work"])] ≠ []
    ∧ isCalendarAllowed
        (calendarArg [("calendar", .s "personal")])
        (calConfigCalendars [("calendars", ["work"])]) = false
    ∧ CalendarListEventsHandler
        { listCalendars := .error "unused", listEvents := fun _ _ _ _ => .error "unused",
          createEvent := fun _ _ => .error "unused",
          patchEvent := fun _ _ _ => .error "unused",
          deleteEvent := fun _ _ => .error "unused",
          moveEvent := fun _ _ _ => .error "unused",
          parseDate := fun _ => none, parseRFC3339 := fun _ => .error "unused",
          fmtDate := fun _ => "", fmtRFC3339 := fun _ => "",
          unmarshalStrList := fun _ => .error "unused",
          marshalEntries := fun _ => "" }
        [("calendars", ["work"])] (.map [("calendar", .s "personal")])
      = (.errorR (errAccessDenied ++ ": " ++ calendarArg [("calendar", .s "personal")]), []) := by
  refine ⟨by decide, by decide, ?_⟩
  exact ((c8_allowlist _ [("calendars", ["work"])] [("calendar", .s "personal")]).2.1
    (by decide) (by decide)).1

/-! ## Tool registration (claim C2) -/

/-- The registration loop registers exactly the registry names the
tools map enables. -/
theorem registerLoop_filter (tools : ToolsMap) (names : List String) (s : MCPServerState) :
    names.foldl (fun acc name =>
        match tools.lookup name with
        | some true => addTool acc name
        | _ => acc) s
      = s ++ names.filter (fun n => (tools.lookup n).getD false) := by
  induction names generalizing s with
  | nil => simp
  | cons hd tl ih =>
    cases h : tools.lookup hd with
    | none => simpa [List.foldl, List.filter, h] using ih s
    | some b =>
      cases b with
      | false => simpa [List.foldl, List.filter, h] using ih s
      | true =>
        simp only [List.foldl, h]
        rw [ih (addTool s hd)]
        have hp : ((List.lookup hd tools).getD false) = true := by simp [h]
        simp [List.filter_cons, hp, addTool]

/-- C2, corrected form: the claim fails for the Obsidian server.  Two
configurations whose `mcp.tools` maps differ register different tool
sets (`{get_file}` versus none). -/
theorem c2_counterexample :
    obsidianRegisterTools [] [("get_file", true)] = ["get_file"]
    ∧ obsidianRegisterTools [] [] = []
    ∧ (["get_file"] : List String) ≠ [] :=
  ⟨rfl, rfl, by simp⟩

/-- C2 (amended): the Gmail server registers exactly `gmail_search`
and `gmail_read` and the Calendar server exactly its six calendar
tools, independently of the configuration; the Obsidian server
registers exactly those registry tools its configuration's `mcp.tools`
map marks `true`. -/
theorem c2_registration (s : MCPServerState) (config : CalConfig) (tools : ToolsMap) :
    gmailAddTools s = s ++ ["gmail_search", "gmail_read"]
    ∧ calendarAddTools s config
        = s ++ ["calendar_list", "calendar_list_events", "calendar_create_event",
            "calendar_patch_event", "calendar_delete_event", "calendar_move_event"]
    ∧ obsidianRegisterTools s tools
        = s ++ obsidianToolRegistry.filter (fun n => (tools.lookup n).getD false) := by
  refine ⟨by simp [gmailAddTools, addTool], by simp [calendarAddTools, addTool], ?_⟩
  exact registerLoop_filter tools obsidianToolRegistry s

/-! ## Config loading (claim C10) -/

/-- C10: `Load` resolves paths deterministically.  An empty argument
searches XDG for `bttk-mcp/config.json`; a decoded config comes back
with the Gmail and Calendar credential/token files first defaulted
(`credentials.json`, `token.json`) and then, like the cert path,
resolved: empty and absolute paths unchanged, relative paths joined to
the config file's directory and made absolute (via the working
directory); all other fields are untouched. -/
theorem c10_config_load (env : ConfigEnv) :
    (env.xdgSearch "bttk-mcp/config.json" = none → Load env .emptyP = none)
    ∧ (∀ p, env.xdgSearch "bttk-mcp/config.json" = some p → p ≠ .emptyP →
        Load env .emptyP = Load env p)
    ∧ (∀ p, p ≠ .emptyP → env.readConfig p = none → Load env p = none)
    ∧ (∀ p raw, p ≠ .emptyP → env.readConfig p = some raw →
        Load env p = some { raw with
          obsidianCert := resolvePath env.cwd p.dir raw.obsidianCert,
          gmailCredentialsFile :=
            resolvePath env.cwd p.dir (dfltPath raw.gmailCredentialsFile "credentials.json"),
          gmailTokenFile :=
            resolvePath env.cwd p.dir (dfltPath raw.gmailTokenFile "token.json"),
          calendarCredentialsFile :=
            resolvePath env.cwd p.dir (dfltPath raw.calendarCredentialsFile "credentials.json"),
          calendarTokenFile :=
            resolvePath env.cwd p.dir (dfltPath raw.calendarTokenFile "token.json") })
    ∧ (∀ cwd d, resolvePath cwd d .emptyP = .emptyP)
    ∧ (∀ cwd d cs, resolvePath cwd d (.absP cs) = .absP cs)
    ∧ (∀ cwd d cs, resolvePath cwd d (.rel cs) = (d.join cs).abs cwd)
    ∧ (∀ cwd d cs, (resolvePath cwd d (.rel cs)).isAbs = true) := by
  refine ⟨?_, ?_, ?_, ?_, fun _ _ => rfl, fun _ _ _ => rfl, fun _ _ _ => rfl, ?_⟩
  · intro h
    simp [Load, h]
  · intro p h hne
    simp [Load, h, hne]
  · intro p hne h
    simp [Load, h, hne]
  · intro p raw hne h
    simp [Load, hne, h]
  · intro cwd d cs
    cases d <;> simp [resolvePath, GPath.join, GPath.abs, GPath.isAbs]

/-- Witness for `c10_config_load`: a config at `/etc/app/config.json`
with a relative token file and an absolute cert. -/
theorem c10_config_load_witness :
    (GPath.absP ["etc", "app", "config.json"]) ≠ .emptyP
    ∧ ({ xdgSearch := fun _ => none,
         readConfig := fun _ => some
           { obsidianURL := "u", obsidianCert := .absP ["c", "cert.pem"],
             obsidianAPIKey := "k", gmailEnabled := true,
             gmailCredentialsFile := .emptyP, gmailTokenFile := .rel ["tok", "t.json"],
             calendarEnabled := false, calendarCredentialsFile := .emptyP,
             calendarTokenFile := .emptyP, calendars := [], mcpTools := [] },
         cwd := ["home"] } : ConfigEnv).readConfig (.absP ["etc", "app", "config.json"])
        = some
           { obsidianURL := "u", obsidianCert := .absP ["c", "cert.pem"],
             obsidianAPIKey := "k", gmailEnabled := true,
             gmailCredentialsFile := .emptyP, gmailTokenFile := .rel ["tok", "t.json"],
             calendarEnabled := false, calendarCredentialsFile := .emptyP,
             calendarTokenFile := .emptyP, calendars := [], mcpTools := [] }
    ∧ Load
        { xdgSearch := fun _ => none,
          readConfig := fun _ => some
           { obsidianURL := "u", obsidianCert := .absP ["c", "cert.pem"],
             obsidianAPIKey := "k", gmailEnabled := true,
             gmailCredentialsFile := .emptyP, gmailTokenFile := .rel ["tok", "t.json"],
             calendarEnabled := false, calendarCredentialsFile := .emptyP,
             calendarTokenFile := .emptyP, calendars := [], mcpTools := [] },
          cwd := ["home"] }
        (.absP ["etc", "app", "config.json"])
      = some
           { obsidianURL := "u", obsidianCert := .absP ["c", "cert.pem"],
             obsidianAPIKey := "k", gmailEnabled := true,
             gmailCredentialsFile := .absP ["etc", "app", "credentials.json"],
             gmailTokenFile := .absP ["etc", "app", "tok", "t.json"],
             calendarEnabled := false,
             calendarCredentialsFile := .absP ["etc", "app", "credentials.json"],
             calendarTokenFile := .absP ["etc", "app", "token.json"],
             calendars := [], mcpTools := [] } := by
  refine ⟨by decide, rfl, ?_⟩
  have h := (c10_config_load
    { xdgSearch := fun _ => none,
      readConfig := fun _ => some
       { obsidianURL := "u", obsidianCert := .absP ["c", "cert.pem"],
         obsidianAPIKey := "k", gmailEnabled := true,
         gmailCredentialsFile := .emptyP, gmailTokenFile := .rel ["tok", "t.json"],
         calendarEnabled := false, calendarCredentialsFile := .emptyP,
         calendarTokenFile := .emptyP, calendars := [], mcpTools := [] },
      cwd := ["home"] }).2.2.2.1
    (.absP ["etc", "app", "config.json"]) _ (by simp) rfl
  simpa [resolvePath, dfltPath, GPath.dir, GPath.join, GPath.abs] using h
